import Mathlib

/-!
Verification model of the epoch-indexed reconciliation and incremental-cache
engine of the block-parliament validator-finances tool.

The definitions below are a shallow embedding of the Rust source:
  - crates/validator-finances/src/cache.rs       (SQLite-backed ledger store)
  - crates/validator-finances/src/main.rs        (reconciliation runs)
  - crates/validator-finances/src/transactions.rs (transfer scan, categorize, dates)
  - crates/validator-finances/src/constants.rs   (calibration constants)

Machine integers are modelled as Nat / Int with the explicit wrap-around of
Rust `as` casts at the SQLite boundary (columns are i64).  Network calls are
oracles passed as function or list arguments.  The SQLite tables keyed by
epoch are modelled as maps from the stored i64 key to the stored row.
-/

namespace BlockParliament

/-! ## Rust integer casts (u64 <-> i64, as used when binding SQLite columns) -/

/-- Two to the 63rd, the i64 sign boundary. -/
def two63 : Nat := 9223372036854775808

/-- Two to the 64th. -/
def two64 : Nat := 18446744073709551616

/-- Rust `x as i64` on a u64 value: reinterpret the low 64 bits as two's
complement. -/
def u64ToI64 (n : Nat) : Int :=
  if n % two64 < two63 then ((n % two64 : Nat) : Int)
  else ((n % two64 : Nat) : Int) - (two64 : Int)

/-- Rust `x as u64` on an i64 value: value modulo 2^64. -/
def i64ToU64 (i : Int) : Nat := (i % (two64 : Int)).toNat

/-- Rust `x as u8` on an i64 value: value modulo 256. -/
def i64ToU8 (i : Int) : Nat := (i % 256).toNat

/-! ## Inclusive ranges (Rust `start..=end` and the SQL `BETWEEN` key walk) -/

/-- Rust inclusive range `s..=e` over u64, as an ascending list; empty when
`s > e`. -/
def natRangeIncl (s e : Nat) : List Nat :=
  (List.range (e + 1 - s)).map (fun k => s + k)

/-- Ascending walk of the i64 keys between `lo` and `hi`; used to model a SQL
range scan with `ORDER BY` on the integer primary key. -/
def intRangeIncl (lo hi : Int) : List Int :=
  (List.range (hi + 1 - lo).toNat).map (fun k : Nat => lo + (k : Int))

/-! ## Saturating i64 arithmetic (Rust `saturating_sub` / `saturating_mul` /
`saturating_add` on i64, as used by `epoch_to_date`) -/

/-- Largest i64 value. -/
def i64Max : Int := 9223372036854775807

/-- Smallest i64 value. -/
def i64Min : Int := -9223372036854775808

/-- Clamp an integer into the i64 range. -/
def clampI64 (x : Int) : Int := max i64Min (min i64Max x)

/-- Rust `a.saturating_sub(b)` on i64. -/
def satSubI64 (a b : Int) : Int := clampI64 (a - b)

/-- Rust `a.saturating_mul(b)` on i64. -/
def satMulI64 (a b : Int) : Int := clampI64 (a * b)

/-- Rust `a.saturating_add(b)` on i64. -/
def satAddI64 (a b : Int) : Int := clampI64 (a + b)

/-! ## Calendar model (chrono collaborator)

The tool formats epoch dates through `chrono::DateTime::from_timestamp` and
the `%Y-%m-%d` format string.  These are modelled here with the standard
civil-calendar algorithms: `chrono` accepts exactly the timestamps whose day
falls between the years -262144 and 262143 and otherwise returns `None`. -/

/-- Days since 1970-01-01 of a proleptic Gregorian date (Hinnant
days_from_civil, floor-division form). -/
def daysFromCivil (y : Int) (m d : Nat) : Int :=
  let y2 : Int := if m ≤ 2 then y - 1 else y
  let era : Int := y2.fdiv 400
  let yoe : Nat := (y2 - era * 400).toNat
  let mp : Nat := if 2 < m then m - 3 else m + 9
  let doy : Nat := (153 * mp + 2) / 5 + d - 1
  let doe : Nat := yoe * 365 + yoe / 4 - yoe / 100 + doy
  era * 146097 + (doe : Int) - 719468

/-- Date of a day count since 1970-01-01 (Hinnant civil_from_days,
floor-division form); year, month, day. -/
def civilFromDays (z0 : Int) : Int × Nat × Nat :=
  let z : Int := z0 + 719468
  let era : Int := z.fdiv 146097
  let doe : Nat := (z - era * 146097).toNat
  let yoe : Nat := (doe - doe / 1460 + doe / 36524 - doe / 146096) / 365
  let y : Int := (yoe : Int) + era * 400
  let doy : Nat := doe - (365 * yoe + yoe / 4 - yoe / 100)
  let mp : Nat := (5 * doy + 2) / 153
  let d : Nat := doy - (153 * mp + 2) / 5 + 1
  let m : Nat := if mp < 10 then mp + 3 else mp - 9
  (if m ≤ 2 then y + 1 else y, m, d)

/-- Left-pad a numeral string with zeros to the given width. -/
def padZeros (width : Nat) (s : String) : String :=
  if s.length < width then String.mk (List.replicate (width - s.length) '0') ++ s
  else s

/-- Render a year as chrono renders `%Y`: at least four digits, an explicit
sign outside 0..=9999. -/
def formatYear (y : Int) : String :=
  if y < 0 then "-" ++ padZeros 4 (toString (-y))
  else if y ≤ 9999 then padZeros 4 (toString y)
  else "+" ++ toString y

/-- Render a date as chrono renders `%Y-%m-%d`. -/
def formatYmd (ymd : Int × Nat × Nat) : String :=
  formatYear ymd.1 ++ "-" ++ padZeros 2 (toString ymd.2.1) ++ "-" ++
    padZeros 2 (toString ymd.2.2)

/-- Largest timestamp accepted by `chrono::DateTime::from_timestamp`
(23:59:59 on the last day of year 262143). -/
def chronoMaxTs : Int := daysFromCivil 262143 12 31 * 86400 + 86399

/-- Smallest timestamp accepted by `chrono::DateTime::from_timestamp`
(midnight of the first day of year -262144). -/
def chronoMinTs : Int := daysFromCivil (-262144) 1 1 * 86400

/-- Modelled from the chrono collaborator: `DateTime::from_timestamp(ts, 0)`
followed by `format("%Y-%m-%d")`, as an `Option String`; `none` when the
timestamp is outside the representable range. -/
def fromTimestampYmd (ts : Int) : Option String :=
  if chronoMinTs ≤ ts ∧ ts ≤ chronoMaxTs then
    some (formatYmd (civilFromDays (ts.fdiv 86400)))
  else none

/-! ## Calibration constants (constants.rs) -/

/-- Slots per epoch on mainnet. -/
def SLOTS_PER_EPOCH : Nat := 432000

/-- Approximate epoch duration in seconds. -/
def EPOCH_DURATION_SECONDS : Int := 172800

/-- Reference epoch for date calculation. -/
def REFERENCE_EPOCH : Int := 896

/-- Unix timestamp of the reference epoch. -/
def REFERENCE_EPOCH_TIMESTAMP : Int := 1765843200

/-! ## epoch_to_date (transactions.rs) -/

/-- Saturating epoch-to-timestamp arithmetic of `epoch_to_date`:
`epoch.min(i64::MAX) as i64`, then saturating subtract / multiply / add. -/
def epochTimestamp (epoch : Nat) : Int :=
  let epochI : Int := ((min epoch (two63 - 1) : Nat) : Int)
  let epochDiff : Int := satSubI64 epochI REFERENCE_EPOCH
  let duration : Int := satMulI64 epochDiff EPOCH_DURATION_SECONDS
  satAddI64 REFERENCE_EPOCH_TIMESTAMP duration

/-- Convert an epoch number to an approximate date string
(`transactions::epoch_to_date`); falls back to the string "unknown" when the
timestamp is not representable as a date. -/
def epochToDate (epoch : Nat) : String :=
  match fromTimestampYmd (epochTimestamp epoch) with
  | some s => s
  | none => "unknown"

/-! ## Generic upsert map (INSERT OR REPLACE on an integer primary key) -/

/-- Apply a sequence of INSERT OR REPLACE statements, each keyed by an i64
primary key, to a keyed table. -/
def upsertAll {β : Type} (tbl : Int → Option β) (items : List (Int × β)) :
    Int → Option β :=
  items.foldl (fun t it => Function.update t it.1 (some it.2)) tbl

/-! ## Epoch rewards data model (transactions.rs / cache.rs) -/

/-- Inflation reward for a single epoch (`transactions::EpochReward`).
The f64 `amount_sol` is carried as a rational: the store moves it verbatim,
so any faithful carrier of the f64 payload works. -/
structure EpochReward where
  epoch : Nat
  amount_lamports : Nat
  amount_sol : Rat
  commission : Nat
  effective_slot : Nat
  date : Option String
deriving DecidableEq, Repr

/-- Stored row of the `epoch_rewards` table: the non-key columns exactly as
bound in `store_epoch_rewards` (i64 / REAL / TEXT). -/
structure RewardRowData where
  amountLamports : Int
  amountSol : Rat
  commission : Int
  effectiveSlot : Int
  date : Option String
deriving DecidableEq, Repr

/-- The `epoch_rewards` table, keyed by its i64 `epoch` primary key. -/
def RewardTable : Type := Int → Option RewardRowData

/-- Freshly created schema: no rows. -/
def emptyRewardTable : RewardTable := fun _ => none

/-- Column binding performed by `store_epoch_rewards` for one record. -/
def rewardToRow (r : EpochReward) : RewardRowData :=
  { amountLamports := u64ToI64 r.amount_lamports
    amountSol := r.amount_sol
    commission := ((r.commission % 256 : Nat) : Int)
    effectiveSlot := u64ToI64 r.effective_slot
    date := r.date }

/-- Row decoding performed by `get_epoch_rewards` (the `as u64` / `as u8`
casts). -/
def rowToReward (k : Int) (d : RewardRowData) : EpochReward :=
  { epoch := i64ToU64 k
    amount_lamports := i64ToU64 d.amountLamports
    amount_sol := d.amountSol
    commission := i64ToU8 d.commission
    effective_slot := i64ToU64 d.effectiveSlot
    date := d.date }

/-- Cache.store_epoch_rewards: upsert each record under its epoch key. -/
def storeEpochRewards (tbl : RewardTable) (rs : List EpochReward) : RewardTable :=
  upsertAll tbl (rs.map (fun r => (u64ToI64 r.epoch, rewardToRow r)))

/-- Cache.get_epoch_rewards: rows with epoch between the bounds, ascending. -/
def getEpochRewards (tbl : RewardTable) (s e : Nat) : List EpochReward :=
  (intRangeIncl (u64ToI64 s) (u64ToI64 e)).filterMap
    (fun k => (tbl k).map (rowToReward k))

/-- Epoch keys present in the table between the bounds, decoded back to u64
(the `SELECT epoch FROM ... WHERE epoch >= ? AND epoch <= ?` step of the
missing-epoch queries). -/
def cachedEpochsInRange {β : Type} (tbl : Int → Option β) (s e : Nat) : List Nat :=
  ((intRangeIncl (u64ToI64 s) (u64ToI64 e)).filter (fun k => (tbl k).isSome)).map i64ToU64

/-- Epochs of the inclusive u64 range that are not in the cached list (the
`(start_epoch..=end_epoch).filter(|e| !cached.contains(e))` step). -/
def missingEpochsFromCached (cached : List Nat) (s e : Nat) : List Nat :=
  (natRangeIncl s e).filter (fun ep => decide (ep ∉ cached))

/-- Cache.get_missing_reward_epochs. -/
def getMissingRewardEpochs (tbl : RewardTable) (s e : Nat) : List Nat :=
  missingEpochsFromCached (cachedEpochsInRange tbl s e) s e

/-! ## Stable sort (Rust sort_by / sort_by_key), by structural recursion so
that every run result evaluates. -/

/-- Insert `a` after every element `x` with `keep x a = true`. -/
def insertSorted {α : Type} (keep : α → α → Bool) (a : α) : List α → List α
  | [] => [a]
  | x :: xs => if keep x a then x :: insertSorted keep a xs else a :: x :: xs

/-- Stable insertion sort: `keep x a` decides that `x` stays strictly before
`a`. -/
def stableSortBy {α : Type} (keep : α → α → Bool) : List α → List α
  | [] => []
  | a :: rest => insertSorted keep a (stableSortBy keep rest)

/-- Rust `rewards.sort_by_key(|r| r.epoch)`. -/
def sortByEpoch (rs : List EpochReward) : List EpochReward :=
  stableSortBy (fun x a => decide (x.epoch < a.epoch)) rs

/-! ## Rewards reconciliation run (main.rs fetch_rewards_with_cache)

Network calls are oracles:
  - `primary ep` models `transactions::fetch_inflation_rewards(config, ep,
    Some(ep))` collapsed to its observable outcome: `some d` when the RPC
    returned a reward for the epoch, `none` when it errored or returned
    nothing (both are treated identically by the caller);
  - `dune date` models `DuneClient::fetch_inflation_rewards(date)`: `some
    rows` on success, `none` on error. -/

/-- Observable payload of a successful per-epoch RPC reward fetch.  The f64
`amountSol` the source computes as `amount as f64 / 1e9` is part of the
oracle outcome (float arithmetic is not re-modelled). -/
structure PrimaryData where
  amountLamports : Nat
  amountSol : Rat
  commission : Nat
  effectiveSlot : Nat
deriving DecidableEq, Repr

/-- Record built by `fetch_inflation_rewards_internal` for epoch `ep`. -/
def mkReward (ep : Nat) (d : PrimaryData) : EpochReward :=
  { epoch := ep
    amount_lamports := d.amountLamports
    amount_sol := d.amountSol
    commission := d.commission
    effective_slot := d.effectiveSlot
    date := some (epochToDate ep) }

/-- Zero-valued negative record cached for an epoch both sources missed
(the `EpochReward` literal in the Dune-fallback arms). -/
def zeroReward (commissionPercent : Nat) (ep : Nat) : EpochReward :=
  { epoch := ep
    effective_slot := ep * SLOTS_PER_EPOCH
    amount_lamports := 0
    amount_sol := 0
    commission := commissionPercent
    date := some (epochToDate ep) }

/-- Smallest element of a list of epochs (`rpc_failures.iter().min()`,
defaulting to 0 on the empty list, which the caller rules out). -/
def listMinD (l : List Nat) : Nat :=
  match l.min? with
  | some m => m
  | none => 0

/-- main.rs prepare_dune_fallback: `none` when no fallback is possible,
otherwise the start date of the single bulk query. -/
def prepareDuneFallback (rpcFailures : List Nat) (duneKey : Bool) : Option String :=
  if rpcFailures.isEmpty then none
  else if duneKey then some (epochToDate (listMinD rpcFailures))
  else none

/-- One iteration of the per-epoch primary loop: a success is stored at once
and appended to the result, a failure is pushed on the failure set. -/
def primaryStep (primary : Nat → Option PrimaryData)
    (acc : RewardTable × List EpochReward × List Nat) (ep : Nat) :
    RewardTable × List EpochReward × List Nat :=
  match primary ep with
  | some d => (storeEpochRewards acc.1 [mkReward ep d], acc.2.1 ++ [mkReward ep d], acc.2.2)
  | none => (acc.1, acc.2.1, acc.2.2 ++ [ep])

/-- The per-epoch primary pass over the missing epochs. -/
def primaryPass (primary : Nat → Option PrimaryData) (tbl : RewardTable)
    (rws : List EpochReward) (missing : List Nat) :
    RewardTable × List EpochReward × List Nat :=
  missing.foldl (primaryStep primary) (tbl, rws, [])

/-- Records fetched by the primary pass, in epoch order. -/
def primarySuccesses (primary : Nat → Option PrimaryData) (missing : List Nat) :
    List EpochReward :=
  missing.filterMap (fun ep => (primary ep).map (mkReward ep))

/-- Epochs the primary pass could not fill. -/
def primaryFailures (primary : Nat → Option PrimaryData) (missing : List Nat) :
    List Nat :=
  missing.filter (fun ep => (primary ep).isNone)

/-- Result of one rewards reconciliation run: the final table, the returned
records, the primary failure set and the Dune query dates issued. -/
structure RewardsRun where
  store : RewardTable
  rewards : List EpochReward
  failures : List Nat
  duneQueries : List String

/-- main.rs fetch_rewards_with_cache, cached path (`no_cache == false`). -/
def fetchRewardsWithCache (tbl : RewardTable) (startEpoch endEpoch currentEpoch : Nat)
    (primary : Nat → Option PrimaryData) (dune : String → Option (List EpochReward))
    (duneKey : Bool) (commissionPercent : Nat) : RewardsRun :=
  let completedEnd := min endEpoch (currentEpoch - 1)
  let cached := getEpochRewards tbl startEpoch completedEnd
  let missing := getMissingRewardEpochs tbl startEpoch completedEnd
  let passed := primaryPass primary tbl cached missing
  let tbl1 := passed.1
  let rewards1 := passed.2.1
  let rpcFailures := passed.2.2
  let afterDune :
      RewardTable × List EpochReward × List String :=
    match prepareDuneFallback rpcFailures duneKey with
    | none => (tbl1, rewards1, [])
    | some startDate =>
      match dune startDate with
      | none => (tbl1, rewards1, [startDate])
      | some duneRewards =>
        let needed := duneRewards.filter (fun r => decide (r.epoch ∈ rpcFailures))
        if needed.isEmpty then
          let emptyEpochs := rpcFailures.map (zeroReward commissionPercent)
          (storeEpochRewards tbl1 emptyEpochs, rewards1, [startDate])
        else
          let tbl2 := storeEpochRewards tbl1 needed
          let filledEpochs := needed.map (fun r => r.epoch)
          let unfilled := (rpcFailures.filter
            (fun ep => decide (ep ∉ filledEpochs))).map (zeroReward commissionPercent)
          (storeEpochRewards tbl2 unfilled, rewards1 ++ needed, [startDate])
  let withCurrent :=
    if currentEpoch ≤ endEpoch then
      afterDune.2.1 ++ ((primary currentEpoch).map (mkReward currentEpoch)).toList
    else afterDune.2.1
  { store := afterDune.1
    rewards := sortByEpoch withCurrent
    failures := rpcFailures
    duneQueries := afterDune.2.2 }

/-- main.rs fetch_rewards_with_cache, forced-refresh path (`no_cache`):
fetch the whole range from the primary source and store the result as is. -/
def fetchRewardsNoCache (tbl : RewardTable) (startEpoch endEpoch : Nat)
    (primary : Nat → Option PrimaryData) : RewardTable × List EpochReward :=
  let rewards := (natRangeIncl startEpoch endEpoch).filterMap
    (fun ep => (primary ep).map (mkReward ep))
  (storeEpochRewards tbl rewards, rewards)

/-! ## Leader fees data model (leader_fees.rs / cache.rs) -/

/-- Leader slot fees for one epoch (`leader_fees::EpochLeaderFees`). -/
structure EpochLeaderFees where
  epoch : Nat
  leader_slots : Nat
  blocks_produced : Nat
  skipped_slots : Nat
  total_fees_lamports : Nat
  total_fees_sol : Rat
  date : Option String
deriving DecidableEq, Repr

/-- Stored row of the `leader_fees` table (non-key columns). -/
structure LeaderRowData where
  leaderSlots : Int
  blocksProduced : Int
  skippedSlots : Int
  totalFeesLamports : Int
  totalFeesSol : Rat
  date : Option String
deriving DecidableEq, Repr

/-- The `leader_fees` table, keyed by its i64 `epoch` primary key. -/
def LeaderTable : Type := Int → Option LeaderRowData

/-- Freshly created schema: no rows. -/
def emptyLeaderTable : LeaderTable := fun _ => none

/-- Column binding performed by `store_leader_fees` for one record. -/
def leaderToRow (f : EpochLeaderFees) : LeaderRowData :=
  { leaderSlots := u64ToI64 f.leader_slots
    blocksProduced := u64ToI64 f.blocks_produced
    skippedSlots := u64ToI64 f.skipped_slots
    totalFeesLamports := u64ToI64 f.total_fees_lamports
    totalFeesSol := f.total_fees_sol
    date := f.date }

/-- Cache.store_leader_fees. -/
def storeLeaderFees (tbl : LeaderTable) (fs : List EpochLeaderFees) : LeaderTable :=
  upsertAll tbl (fs.map (fun f => (u64ToI64 f.epoch, leaderToRow f)))

/-- Cache.get_missing_leader_fee_epochs. -/
def getMissingLeaderFeeEpochs (tbl : LeaderTable) (s e : Nat) : List Nat :=
  missingEpochsFromCached (cachedEpochsInRange tbl s e) s e

/-- main.rs fetch_leader_fees_with_cache, forced-refresh path (`no_cache`):
the fetched list (an oracle here) is filtered to completed epochs before the
store write. -/
def fetchLeaderFeesNoCache (tbl : LeaderTable) (fetched : List EpochLeaderFees)
    (currentEpoch : Nat) : LeaderTable × List EpochLeaderFees :=
  let completed := fetched.filter (fun f => decide (f.epoch < currentEpoch))
  (storeLeaderFees tbl completed, fetched)

/-! ## MEV claims data model (jito.rs / cache.rs) -/

/-- Jito MEV claim for one epoch (`jito::MevClaim`). -/
structure MevClaim where
  epoch : Nat
  total_tips_lamports : Nat
  commission_lamports : Nat
  amount_sol : Rat
  date : Option String
deriving DecidableEq, Repr

/-- Stored row of the `mev_claims` table (non-key columns). -/
structure MevRowData where
  totalTipsLamports : Int
  commissionLamports : Int
  amountSol : Rat
  date : Option String
deriving DecidableEq, Repr

/-- The `mev_claims` table, keyed by its i64 `epoch` primary key. -/
def MevTable : Type := Int → Option MevRowData

/-- Freshly created schema: no rows. -/
def emptyMevTable : MevTable := fun _ => none

/-- Column binding performed by `store_mev_claims` for one record. -/
def mevToRow (c : MevClaim) : MevRowData :=
  { totalTipsLamports := u64ToI64 c.total_tips_lamports
    commissionLamports := u64ToI64 c.commission_lamports
    amountSol := c.amount_sol
    date := c.date }

/-- Row decoding performed by `get_mev_claims`. -/
def rowToMev (k : Int) (d : MevRowData) : MevClaim :=
  { epoch := i64ToU64 k
    total_tips_lamports := i64ToU64 d.totalTipsLamports
    commission_lamports := i64ToU64 d.commissionLamports
    amount_sol := d.amountSol
    date := d.date }

/-- Cache.store_mev_claims. -/
def storeMevClaims (tbl : MevTable) (cs : List MevClaim) : MevTable :=
  upsertAll tbl (cs.map (fun c => (u64ToI64 c.epoch, mevToRow c)))

/-- Cache.get_mev_claims: rows with epoch between the bounds, ascending. -/
def getMevClaims (tbl : MevTable) (s e : Nat) : List MevClaim :=
  (intRangeIncl (u64ToI64 s) (u64ToI64 e)).filterMap
    (fun k => (tbl k).map (rowToMev k))

/-- Rust `claims.sort_by_key(|c| c.epoch)`. -/
def sortMevByEpoch (cs : List MevClaim) : List MevClaim :=
  stableSortBy (fun x a => decide (x.epoch < a.epoch)) cs

/-- Result of one MEV reconciliation run: the final table, the returned
claims, and how many calls were made to the Jito bulk source. -/
structure MevRun where
  store : MevTable
  claims : List MevClaim
  upstreamCalls : Nat

/-- main.rs fetch_mev_with_cache, cached path (`no_cache == false`); the
single bulk response of the Jito source is the oracle `jitoResp`. -/
def fetchMevWithCache (tbl : MevTable) (startEpoch endEpoch currentEpoch : Nat)
    (jitoResp : List MevClaim) : MevRun :=
  let completedEnd := min endEpoch (currentEpoch - 1)
  let claims := getMevClaims tbl startEpoch completedEnd
  let hasRecentData := claims.any (fun c => decide (completedEnd - 1 ≤ c.epoch))
  if hasRecentData then
    { store := tbl, claims := sortMevByEpoch claims, upstreamCalls := 0 }
  else
    let freshClaims := jitoResp
    let completed := freshClaims.filter (fun c => decide (c.epoch < currentEpoch))
    let inRange := freshClaims.filter
      (fun c => decide (startEpoch ≤ c.epoch) && decide (c.epoch ≤ endEpoch))
    { store := storeMevClaims tbl completed
      claims := sortMevByEpoch inRange
      upstreamCalls := 1 }

/-- main.rs fetch_mev_with_cache, forced-refresh path (`no_cache`): store the
whole bulk response as is. -/
def fetchMevNoCache (tbl : MevTable) (jitoResp : List MevClaim) :
    MevTable × List MevClaim :=
  (storeMevClaims tbl jitoResp, jitoResp)

/-! ## Address labels (addresses.rs)

Addresses are modelled as their base58 strings. -/

/-- Address category for classification (`addresses::AddressCategory`). -/
inductive AddressCategory where
  | solanaFoundation
  | jitoMev
  | exchange
  | validatorSelf
  | personalWallet
  | systemProgram
  | stakeProgram
  | voteProgram
  | unknown
deriving DecidableEq, Repr

/-- The static map of known addresses (`addresses::KNOWN_ADDRESSES`),
reduced to the category component consulted by the categorizer. -/
def KNOWN_ADDRESSES : List (String × AddressCategory) :=
  [("mpa4abUkjQoAvPzREkh5Mo75hZhPFQ2FSH6w7dWKuQ5", .solanaFoundation),
   ("7K8DVxtNJGnMtUY1CQJT5jcs8sFGSZTDiG7kowvFpECh", .solanaFoundation),
   ("DRpbCBMxVnDK7maPM5tGv6MvB3v1sRMC86PZ8okm21hy", .solanaFoundation),
   ("4ZJhPQAgUseCsWhKvJLTmmRRUV74fdoTpQLNfKoHtFSP", .solanaFoundation),
   ("DtZWL3BPKa5hw7yQYvaFR29PcXThpLHVU2XAAZrcLiSe", .solanaFoundation),
   ("T1pyyaTNZsKv2WcRAB8oVnk93mLJw2XzjtVYqCsaHqt", .jitoMev),
   ("4R3gSG8BpU4t19KYj8CfnbtRpnT8gtk4dvTHxVRwc2r7", .jitoMev),
   ("8F4jGUmxF36vQ6yabnsxX6AQVXdKBhs8kGSUuRKSg8Xt", .jitoMev),
   ("96gYZGLnJYVFmbjzopPSU6QiEV5fGqZNyN9nmNhvrZU5", .jitoMev),
   ("HFqU5x63VTqvQss8hp11i4wVV8bD44PvwucfZ2bU7gRe", .jitoMev),
   ("Cw8CFyM9FkoMi7K7Crf6HNQqf4uEMzpKw6QNghXLvLkY", .jitoMev),
   ("ADaUMid9yfUytqMBgopwjb2DTLSokTSzL1zt6iGPaS49", .jitoMev),
   ("DfXygSm4jCyNCybVYYK6DwvWqjKee8pbDmJGcLWNDXjh", .jitoMev),
   ("ADuUkR4vqLUMWXxW9gh6D6L8pMSawimctcNZ5pGwDcEt", .jitoMev),
   ("DttWaMuVvTiduZRnguLF7jNxTgiMBZ1hyAumKUiL2KRL", .jitoMev),
   ("3AVi9Tg9Uo68tJfuvoKvqKNWKkC5wPdSSdeBnizKZ6jT", .jitoMev),
   ("H8sMJSCQxfKiFTCfDR3DUMLPwcRbM61LGFJ8N4dK3WjS", .exchange),
   ("2AQdpHJ2JpcEgPiATUXjQxA8QmafFegfQwSLWSprPicm", .exchange),
   ("5tzFkiKscXHK5ZXCGbXZxdw7gTjjD1mBwuoFbhUvuAi9", .exchange),
   ("11111111111111111111111111111111", .systemProgram),
   ("Stake11111111111111111111111111111111111111", .stakeProgram),
   ("Vote111111111111111111111111111111111111111", .voteProgram)]

/-- addresses::get_category. -/
def getCategory (a : String) : AddressCategory :=
  match KNOWN_ADDRESSES.lookup a with
  | some c => c
  | none => .unknown

/-- addresses::is_solana_foundation. -/
def isSolanaFoundation (a : String) : Bool := getCategory a == .solanaFoundation

/-- addresses::is_jito. -/
def isJito (a : String) : Bool := getCategory a == .jitoMev

/-- addresses::is_exchange. -/
def isExchange (a : String) : Bool := getCategory a == .exchange

/-- Category column encoding (`cache::category_to_string`). -/
def categoryToString (c : AddressCategory) : String :=
  match c with
  | .solanaFoundation => "SolanaFoundation"
  | .jitoMev => "JitoMev"
  | .exchange => "Exchange"
  | .validatorSelf => "ValidatorSelf"
  | .personalWallet => "PersonalWallet"
  | .systemProgram => "SystemProgram"
  | .stakeProgram => "StakeProgram"
  | .voteProgram => "VoteProgram"
  | .unknown => "Unknown"

/-- Category column decoding (`cache::string_to_category`). -/
def stringToCategory (s : String) : AddressCategory :=
  if s == "SolanaFoundation" then .solanaFoundation
  else if s == "JitoMev" then .jitoMev
  else if s == "Exchange" then .exchange
  else if s == "ValidatorSelf" then .validatorSelf
  else if s == "PersonalWallet" then .personalWallet
  else if s == "SystemProgram" then .systemProgram
  else if s == "StakeProgram" then .stakeProgram
  else if s == "VoteProgram" then .voteProgram
  else .unknown

/-! ## Validator configuration (config.rs), address part -/

/-- Runtime configuration addresses used by the transfer pipeline. -/
structure Config where
  voteAccount : String
  identity : String
  withdrawAuthority : String
  personalWallet : String
deriving DecidableEq, Repr

/-- Config::is_our_account. -/
def isOurAccount (cfg : Config) (a : String) : Bool :=
  a == cfg.voteAccount || a == cfg.identity || a == cfg.withdrawAuthority

/-- Config::is_relevant_account. -/
def isRelevantAccount (cfg : Config) (a : String) : Bool :=
  isOurAccount cfg a || a == cfg.personalWallet

/-! ## SOL transfers data model (transactions.rs / cache.rs) -/

/-- SOL transfer parsed from a transaction (`transactions::SolTransfer`). -/
structure SolTransfer where
  signature : String
  slot : Nat
  timestamp : Option Int
  date : Option String
  fromAddr : String
  toAddr : String
  amount_lamports : Nat
  amount_sol : Rat
  from_label : String
  to_label : String
  from_category : AddressCategory
  to_category : AddressCategory
deriving DecidableEq, Repr

/-- Stored row of the `sol_transfers` table, all columns as bound by
`store_transfers`; primary key is (signature, accountKey). -/
structure TransferRow where
  signature : String
  slot : Int
  timestamp : Option Int
  date : Option String
  fromAddress : String
  toAddress : String
  amountLamports : Int
  amountSol : Rat
  fromLabel : String
  toLabel : String
  fromCategory : String
  toCategory : String
  accountKey : String
deriving DecidableEq, Repr

/-- Column list of the `get_all_transfers` SELECT (everything except the
account key and fetch time). -/
structure TransferSelRow where
  signature : String
  slot : Int
  timestamp : Option Int
  date : Option String
  fromAddress : String
  toAddress : String
  amountLamports : Int
  amountSol : Rat
  fromLabel : String
  toLabel : String
  fromCategory : String
  toCategory : String
deriving DecidableEq, Repr

/-- Projection of a stored row onto the SELECT columns. -/
def toSelRow (r : TransferRow) : TransferSelRow :=
  { signature := r.signature
    slot := r.slot
    timestamp := r.timestamp
    date := r.date
    fromAddress := r.fromAddress
    toAddress := r.toAddress
    amountLamports := r.amountLamports
    amountSol := r.amountSol
    fromLabel := r.fromLabel
    toLabel := r.toLabel
    fromCategory := r.fromCategory
    toCategory := r.toCategory }

/-- Column binding performed by `store_transfers` for one record. -/
def transferToRow (t : SolTransfer) (accountKey : String) : TransferRow :=
  { signature := t.signature
    slot := u64ToI64 t.slot
    timestamp := t.timestamp
    date := t.date
    fromAddress := t.fromAddr
    toAddress := t.toAddr
    amountLamports := u64ToI64 t.amount_lamports
    amountSol := t.amount_sol
    fromLabel := t.from_label
    toLabel := t.to_label
    fromCategory := categoryToString t.from_category
    toCategory := categoryToString t.to_category
    accountKey := accountKey }

/-- Row decoding performed by `row_to_transfer` (addresses re-parse from
their stored strings, which always succeeds for strings written from keys). -/
def rowToTransfer (r : TransferSelRow) : SolTransfer :=
  { signature := r.signature
    slot := i64ToU64 r.slot
    timestamp := r.timestamp
    date := r.date
    fromAddr := r.fromAddress
    toAddr := r.toAddress
    amount_lamports := i64ToU64 r.amountLamports
    amount_sol := r.amountSol
    from_label := r.fromLabel
    to_label := r.toLabel
    from_category := stringToCategory r.fromCategory
    to_category := stringToCategory r.toCategory }

/-- The transfer-related persistent state: the `sol_transfers` table in rowid
order and the `account_progress` table. -/
structure TransferState where
  transfers : List TransferRow
  progress : String → Option Int

/-- Fresh schema: no rows, no cursors. -/
def emptyTransferState : TransferState :=
  { transfers := [], progress := fun _ => none }

/-- One INSERT OR REPLACE on the (signature, account_key) primary key: the
conflicting row is deleted and the new row appended (fresh rowid). -/
def upsertTransferRow (rows : List TransferRow) (row : TransferRow) : List TransferRow :=
  (rows.filter (fun r =>
    !(r.signature == row.signature && r.accountKey == row.accountKey))) ++ [row]

/-- Cache.store_transfers. -/
def storeTransfers (st : TransferState) (ts : List SolTransfer)
    (accountKey : String) : TransferState :=
  let newRows :=
    ts.foldl (fun rows t => upsertTransferRow rows (transferToRow t accountKey))
      st.transfers
  { st with transfers := newRows }

/-- Keep the first occurrence of every key (the HashSet-seen pattern of the
source, and DISTINCT for `key = id`). -/
def dedupKeepFirstByAux {α β : Type} [DecidableEq β] (key : α → β) (seen : List β) :
    List α → List α
  | [] => []
  | a :: rest =>
    if key a ∈ seen then dedupKeepFirstByAux key seen rest
    else a :: dedupKeepFirstByAux key (key a :: seen) rest

/-- Keep the first occurrence of every key, starting from nothing seen. -/
def dedupKeepFirstBy {α β : Type} [DecidableEq β] (key : α → β) (l : List α) : List α :=
  dedupKeepFirstByAux key [] l

/-- Cache.get_all_transfers: SELECT DISTINCT of the non-key columns, ordered
by slot descending, then deduplicated by signature keeping the first row. -/
def getAllTransfers (st : TransferState) : List SolTransfer :=
  let sel := st.transfers.map toSelRow
  let distinct := dedupKeepFirstBy id sel
  let sorted := stableSortBy (fun x a => decide (a.slot < x.slot)) distinct
  (dedupKeepFirstBy (fun r => r.signature) sorted).map rowToTransfer

/-- Cache.get_account_progress: the larger of the stored cursor and the
largest stored transfer slot of the account (the latter only when positive). -/
def getAccountProgress (st : TransferState) (accountKey : String) : Option Nat :=
  let progressSlot := (st.progress accountKey).map i64ToU64
  let slots := (st.transfers.filter (fun r => r.accountKey == accountKey)).map
    (fun r => r.slot)
  let transferSlot :=
    match slots.max? with
    | none => none
    | some s => if 0 < s then some (i64ToU64 s) else none
  match progressSlot, transferSlot with
  | some p, some t => some (max p t)
  | some p, none => some p
  | none, some t => some t
  | none, none => none

/-- Cache.set_account_progress: INSERT OR REPLACE of the cursor row. -/
def setAccountProgress (st : TransferState) (accountKey : String) (highestSlot : Nat) :
    TransferState :=
  { st with progress :=
      Function.update st.progress accountKey (some (u64ToI64 highestSlot)) }

/-! ## Per-account history scan (transactions.rs fetch_transfers_for_account
and the per-account body of main.rs fetch_transfers_with_cache)

The signature pages returned by the RPC are an oracle `pages` (the list of
successive non-error responses; an empty batch, an exhausted list, or a
post-retry error all end the loop the same way).  Per-transaction fetching
and parsing is an oracle `parseTx` (empty list when the transaction yields no
transfer or cannot be fetched or decoded). -/

/-- One entry of a `get_signatures_for_address` response. -/
structure SigInfo where
  signature : String
  slot : Nat
deriving DecidableEq, Repr

/-- Maximum signatures fetched per account (constants.rs). -/
def MAX_SIGNATURES_PER_ACCOUNT : Nat := 2000

/-- The signature pagination loop: collects new signatures, tracks the
highest slot seen (the first entry of each batch is its most recent), and
stops at the first entry at or below the cursor. -/
def sigLoop (stopAt : Option Nat) :
    List (List SigInfo) → List SigInfo → Option Nat → List SigInfo × Option Nat
  | [], sigs, highest => (sigs, highest)
  | batch :: rest, sigs, highest =>
    if MAX_SIGNATURES_PER_ACCOUNT ≤ sigs.length then (sigs, highest)
    else
      match batch with
      | [] => (sigs, highest)
      | first :: _ =>
        let highest2 : Option Nat :=
          some (match highest with
                | none => first.slot
                | some h => max h first.slot)
        match stopAt with
        | some stopSlot =>
          let newSigs := batch.takeWhile (fun si => decide (stopSlot < si.slot))
          if newSigs.length < batch.length then (sigs ++ newSigs, highest2)
          else sigLoop stopAt rest (sigs ++ newSigs) highest2
        | none => sigLoop stopAt rest (sigs ++ batch) highest2

/-- Result of fetching transfers for an account
(`transactions::FetchTransfersResult`). -/
structure FetchTransfersResult where
  transfers : List SolTransfer
  highestSlotSeen : Option Nat

/-- transactions::fetch_transfers_for_account. -/
def fetchTransfersForAccount (stopAt : Option Nat) (pages : List (List SigInfo))
    (parseTx : SigInfo → List SolTransfer) : FetchTransfersResult :=
  let looped := sigLoop stopAt pages [] none
  { transfers := looped.1.foldl (fun acc si => acc ++ parseTx si) []
    highestSlotSeen := looped.2 }

/-- The per-account body of main.rs fetch_transfers_with_cache (cached
path): read the cursor, scan, persist the new highest slot when one was
seen, store any new transfers. -/
def scanAccount (st : TransferState) (accountKey : String)
    (pages : List (List SigInfo)) (parseTx : SigInfo → List SolTransfer) :
    TransferState :=
  let latestSlot := getAccountProgress st accountKey
  let result := fetchTransfersForAccount latestSlot pages parseTx
  let st1 :=
    match result.highestSlotSeen with
    | some h => setAccountProgress st accountKey h
    | none => st
  if result.transfers.isEmpty then st1
  else storeTransfers st1 result.transfers accountKey

/-! ## In-memory natural-key de-duplication (transactions.rs
fetch_sol_transfers, lines 331-346) -/

/-- Equality on the natural key (signature, from, to, amount). -/
def sameNaturalKey (a b : SolTransfer) : Bool :=
  a.signature == b.signature && a.fromAddr == b.fromAddr && a.toAddr == b.toAddr &&
    a.amount_lamports == b.amount_lamports

/-- Strict lexicographic comparison on the natural key (the `sort_by`
comparator). -/
def naturalKeyBefore (a b : SolTransfer) : Bool :=
  decide (a.signature < b.signature) ||
  (a.signature == b.signature && (decide (a.fromAddr < b.fromAddr) ||
    (a.fromAddr == b.fromAddr && (decide (a.toAddr < b.toAddr) ||
      (a.toAddr == b.toAddr && decide (a.amount_lamports < b.amount_lamports))))))

/-- Rust `Vec::dedup_by`: drop each element equal (under `p`) to the last
kept one. -/
def dedupByKeepFirstAux {α : Type} (p : α → α → Bool) (prev : α) :
    List α → List α
  | [] => []
  | b :: rest =>
    if p b prev then dedupByKeepFirstAux p prev rest
    else b :: dedupByKeepFirstAux p b rest

/-- Rust `Vec::dedup_by` from an initial element. -/
def dedupByKeepFirst {α : Type} (p : α → α → Bool) : List α → List α
  | [] => []
  | a :: rest => a :: dedupByKeepFirstAux p a rest

/-- Rust `a.timestamp.cmp(&b.timestamp)` as a strict Bool comparison
(`None` sorts first). -/
def timestampBefore (a b : SolTransfer) : Bool :=
  match a.timestamp, b.timestamp with
  | none, none => false
  | none, some _ => true
  | some _, none => false
  | some x, some y => decide (x < y)

/-- Tail of transactions::fetch_sol_transfers: sort by the natural key,
de-duplicate consecutive equal keys, then re-sort by timestamp. -/
def dedupTransfersByNaturalKey (ts : List SolTransfer) : List SolTransfer :=
  let sorted := stableSortBy naturalKeyBefore ts
  let deduped := dedupByKeepFirst sameNaturalKey sorted
  stableSortBy timestampBefore deduped

/-! ## Transfer categorization (transactions.rs categorize_transfers) -/

/-- Categorized transfers (`transactions::CategorizedTransfers`). -/
structure CategorizedTransfers where
  seeding : List SolTransfer
  sfdp_reimbursements : List SolTransfer
  mev_deposits : List SolTransfer
  vote_funding : List SolTransfer
  withdrawals : List SolTransfer
  other : List SolTransfer
deriving DecidableEq, Repr

/-- All six buckets empty (`CategorizedTransfers::default`). -/
def emptyCategorized : CategorizedTransfers :=
  { seeding := [], sfdp_reimbursements := [], mev_deposits := []
    vote_funding := [], withdrawals := [], other := [] }

/-- One iteration of the categorization loop. -/
def categorizeStep (cfg : Config) (acc : CategorizedTransfers) (t : SolTransfer) :
    CategorizedTransfers :=
  let isIncoming := isOurAccount cfg t.toAddr
  let isOutgoing := isOurAccount cfg t.fromAddr
  if isIncoming then
    if t.fromAddr == cfg.personalWallet then
      { acc with seeding := acc.seeding ++ [t] }
    else if isSolanaFoundation t.fromAddr then
      { acc with sfdp_reimbursements := acc.sfdp_reimbursements ++ [t] }
    else if isJito t.fromAddr then
      { acc with mev_deposits := acc.mev_deposits ++ [t] }
    else if isOurAccount cfg t.fromAddr then
      { acc with vote_funding := acc.vote_funding ++ [t] }
    else
      { acc with other := acc.other ++ [t] }
  else if isOutgoing then
    if isExchange t.toAddr || t.toAddr == cfg.personalWallet then
      { acc with withdrawals := acc.withdrawals ++ [t] }
    else if isOurAccount cfg t.toAddr then
      { acc with vote_funding := acc.vote_funding ++ [t] }
    else
      { acc with other := acc.other ++ [t] }
  else acc

/-- transactions::categorize_transfers. -/
def categorizeTransfers (ts : List SolTransfer) (cfg : Config) : CategorizedTransfers :=
  ts.foldl (categorizeStep cfg) emptyCategorized

/-- The six classes, for stating which bucket a transfer lands in. -/
inductive TransferClass where
  | seeding
  | sfdpReimbursement
  | mevDeposit
  | voteFunding
  | withdrawal
  | other
deriving DecidableEq, Repr

/-- The per-transfer decision implemented by `categorize_transfers`: `none`
when the transfer is placed in no bucket at all. -/
def classOf (cfg : Config) (t : SolTransfer) : Option TransferClass :=
  if isOurAccount cfg t.toAddr then
    if t.fromAddr == cfg.personalWallet then some .seeding
    else if isSolanaFoundation t.fromAddr then some .sfdpReimbursement
    else if isJito t.fromAddr then some .mevDeposit
    else if isOurAccount cfg t.fromAddr then some .voteFunding
    else some .other
  else if isOurAccount cfg t.fromAddr then
    if isExchange t.toAddr || t.toAddr == cfg.personalWallet then some .withdrawal
    else if isOurAccount cfg t.toAddr then some .voteFunding
    else some .other
  else none

/-! ## Concrete scenario oracles (for the testable-property scenarios of the
spec: epochs 900..=903 requested, current epoch 904, primary fails on 902) -/

/-- Primary oracle of the scenario: every epoch answers except 902. -/
def primScenario : Nat → Option PrimaryData := fun ep =>
  if ep == 902 then none
  else some { amountLamports := 7, amountSol := 7, commission := 5
              effectiveSlot := 390528000 }

/-- Secondary oracle of the scenario: the bulk query dated at epoch 902
succeeds but returns no rows. -/
def duneScenarioEmpty : String → Option (List EpochReward) := fun d =>
  if d == "2025-12-28" then some [] else none

/-- Transfer-scan scenario of the spec: a stored cursor of 1000 for the
withdraw authority and one response page whose entries sit at slots 1500,
1400 and 999 (the last one already covered by the cursor). -/
def c5State : TransferState :=
  { transfers := []
    progress := fun k => if k == "withdraw_authority" then some 1000 else none }

/-- The signature page of the scan scenario. -/
def c5Pages : List (List SigInfo) :=
  [[{ signature := "s1", slot := 1500 }, { signature := "s2", slot := 1400 },
    { signature := "s3", slot := 999 }]]

/-- A state whose stored cursor (1000) is ahead of everything the next scan
will see. -/
def c5StaleState : TransferState :=
  { transfers := []
    progress := fun k => if k == "withdraw_authority" then some 100 else none }

/-! # Theorems

Supporting lemmas first, then one theorem per claim (with witnesses and
counterexamples). -/

theorem u64ToI64_of_lt_two63 {n : Nat} (h : n < two63) : u64ToI64 n = (n : Int) := by
  have h64 : n < two64 := lt_trans h (by norm_num [two63, two64])
  simp [u64ToI64, Nat.mod_eq_of_lt h64, h]

theorem i64ToU64_u64ToI64 {n : Nat} (h : n < two64) : i64ToU64 (u64ToI64 n) = n := by
  unfold i64ToU64 u64ToI64
  rw [Nat.mod_eq_of_lt h]
  by_cases hc : n < two63
  · simp only [hc, if_true, two63, two64] at *
    omega
  · simp only [hc, if_false, two63, two64] at *
    omega

theorem u64ToI64_injOn {a b : Nat} (ha : a < two64) (hb : b < two64)
    (h : u64ToI64 a = u64ToI64 b) : a = b := by
  have := congrArg i64ToU64 h
  rwa [i64ToU64_u64ToI64 ha, i64ToU64_u64ToI64 hb] at this

theorem i64ToU64_of_small {k : Int} (h0 : 0 ≤ k) (h1 : k < (two63 : Int)) :
    i64ToU64 k = k.toNat := by
  unfold i64ToU64
  rw [Int.emod_eq_of_lt h0 (by simp only [two63, two64] at h1 ⊢; omega)]

theorem mem_natRangeIncl {s e x : Nat} : x ∈ natRangeIncl s e ↔ s ≤ x ∧ x ≤ e := by
  simp only [natRangeIncl, List.mem_map, List.mem_range]
  constructor
  · rintro ⟨k, hk, rfl⟩; omega
  · rintro ⟨h1, h2⟩; exact ⟨x - s, by omega, by omega⟩

theorem natRangeIncl_pairwise (s e : Nat) : (natRangeIncl s e).Pairwise (· < ·) := by
  unfold natRangeIncl
  exact (List.pairwise_lt_range _).map _ (fun _ _ h => by omega)

theorem natRangeIncl_nodup (s e : Nat) : (natRangeIncl s e).Nodup :=
  (natRangeIncl_pairwise s e).imp Nat.ne_of_lt

theorem natRangeIncl_eq_nil_of_lt {s e : Nat} (h : e < s) : natRangeIncl s e = [] := by
  unfold natRangeIncl
  have : e + 1 - s = 0 := by omega
  simp [this]

theorem mem_intRangeIncl {lo hi x : Int} : x ∈ intRangeIncl lo hi ↔ lo ≤ x ∧ x ≤ hi := by
  unfold intRangeIncl
  constructor
  · intro hx
    obtain ⟨k, hk, rfl⟩ := List.mem_map.mp hx
    have hk' := List.mem_range.mp hk
    omega
  · intro h
    exact List.mem_map.mpr ⟨(x - lo).toNat, List.mem_range.mpr (by omega), by omega⟩

theorem clampI64_le (x : Int) : clampI64 x ≤ i64Max := by
  unfold clampI64 i64Min i64Max
  omega

theorem le_clampI64 (x : Int) : i64Min ≤ clampI64 x := by
  unfold clampI64 i64Min i64Max
  omega

theorem clampI64_eq_of_mem {x : Int} (h1 : i64Min ≤ x) (h2 : x ≤ i64Max) :
    clampI64 x = x := by
  unfold clampI64 at *
  omega

theorem upsertAll_apply_of_forall_ne {β : Type} {items : List (Int × β)} {k : Int}
    (tbl : Int → Option β) (h : ∀ it ∈ items, it.1 ≠ k) :
    upsertAll tbl items k = tbl k := by
  induction items generalizing tbl with
  | nil => rfl
  | cons it rest ih =>
    have hk : it.1 ≠ k := h it (List.mem_cons_self it rest)
    have := ih (Function.update tbl it.1 (some it.2))
      (fun x hx => h x (List.mem_cons_of_mem it hx))
    rw [upsertAll] at this ⊢
    simp only [List.foldl_cons]
    rw [this, Function.update_noteq (Ne.symm hk)]

theorem upsertAll_apply_of_mem {β : Type} {items : List (Int × β)} {k : Int} {b : β}
    (tbl : Int → Option β) (hnd : (items.map Prod.fst).Nodup)
    (hmem : (k, b) ∈ items) : upsertAll tbl items k = some b := by
  induction items generalizing tbl with
  | nil => cases hmem
  | cons it rest ih =>
    simp only [List.map_cons, List.nodup_cons] at hnd
    rcases List.mem_cons.mp hmem with heq | hmem'
    · subst heq
      have hne : ∀ x ∈ rest, x.1 ≠ k := by
        intro x hx hxk
        apply hnd.1
        rw [← hxk]
        exact List.mem_map.mpr ⟨x, hx, rfl⟩
      have step : upsertAll tbl ((k, b) :: rest) k
          = upsertAll (Function.update tbl k (some b)) rest k := rfl
      rw [step, upsertAll_apply_of_forall_ne _ hne, Function.update_same]
    · have step : upsertAll tbl (it :: rest) k
          = upsertAll (Function.update tbl it.1 (some it.2)) rest k := rfl
      rw [step]
      exact ih (Function.update tbl it.1 (some it.2)) hnd.2 hmem'

theorem upsertAll_isSome_of_isSome {β : Type} {items : List (Int × β)} {k : Int}
    (tbl : Int → Option β) (h : (tbl k).isSome) : (upsertAll tbl items k).isSome := by
  induction items generalizing tbl with
  | nil => exact h
  | cons it rest ih =>
    rw [upsertAll]
    simp only [List.foldl_cons]
    refine ih (Function.update tbl it.1 (some it.2)) ?_
    by_cases hk : k = it.1
    · subst hk; simp
    · rwa [Function.update_noteq hk]

theorem upsertAll_isSome_of_mem {β : Type} {items : List (Int × β)} {k : Int} {b : β}
    (tbl : Int → Option β) (hmem : (k, b) ∈ items) : (upsertAll tbl items k).isSome := by
  induction items generalizing tbl with
  | nil => cases hmem
  | cons it rest ih =>
    rw [upsertAll]
    simp only [List.foldl_cons]
    rcases List.mem_cons.mp hmem with heq | hmem'
    · subst heq
      exact upsertAll_isSome_of_isSome _ (by simp)
    · exact ih (Function.update tbl it.1 (some it.2)) hmem'

theorem storeEpochRewards_apply_of_forall_ne {rs : List EpochReward} {k : Int}
    (tbl : RewardTable) (h : ∀ r ∈ rs, u64ToI64 r.epoch ≠ k) :
    storeEpochRewards tbl rs k = tbl k := by
  refine upsertAll_apply_of_forall_ne tbl ?_
  intro it hit
  obtain ⟨r, hr, rfl⟩ := List.mem_map.mp hit
  exact h r hr

theorem storeEpochRewards_apply_of_mem {rs : List EpochReward} {r : EpochReward}
    (tbl : RewardTable) (hnd : (rs.map (fun x => u64ToI64 x.epoch)).Nodup)
    (hmem : r ∈ rs) :
    storeEpochRewards tbl rs (u64ToI64 r.epoch) = some (rewardToRow r) := by
  refine upsertAll_apply_of_mem tbl ?_ (List.mem_map.mpr ⟨r, hmem, rfl⟩)
  have : ((rs.map (fun x => (u64ToI64 x.epoch, rewardToRow x))).map Prod.fst)
      = rs.map (fun x => u64ToI64 x.epoch) := by
    simp [List.map_map, Function.comp]
  rwa [this]

theorem storeEpochRewards_isSome_of_isSome {rs : List EpochReward} {k : Int}
    (tbl : RewardTable) (h : (tbl k).isSome) :
    (storeEpochRewards tbl rs k).isSome :=
  upsertAll_isSome_of_isSome tbl h

theorem storeEpochRewards_isSome_of_mem {rs : List EpochReward} {r : EpochReward}
    (tbl : RewardTable) (hmem : r ∈ rs) :
    (storeEpochRewards tbl rs (u64ToI64 r.epoch)).isSome :=
  upsertAll_isSome_of_mem tbl (List.mem_map.mpr ⟨r, hmem, rfl⟩)

theorem primaryPass_foldl (primary : Nat → Option PrimaryData) (missing : List Nat) :
    ∀ (tbl : RewardTable) (rws : List EpochReward) (fl : List Nat),
      missing.foldl (primaryStep primary) (tbl, rws, fl) =
        (storeEpochRewards tbl (primarySuccesses primary missing),
         rws ++ primarySuccesses primary missing,
         fl ++ primaryFailures primary missing) := by
  induction missing with
  | nil =>
    intro tbl rws fl
    simp [primarySuccesses, primaryFailures, storeEpochRewards, upsertAll]
  | cons ep rest ih =>
    intro tbl rws fl
    rw [List.foldl_cons]
    cases hp : primary ep with
    | some d =>
      have hstep : primaryStep primary (tbl, rws, fl) ep =
          (storeEpochRewards tbl [mkReward ep d], rws ++ [mkReward ep d], fl) := by
        simp [primaryStep, hp]
      rw [hstep, ih]
      have hsucc : primarySuccesses primary (ep :: rest)
          = mkReward ep d :: primarySuccesses primary rest := by
        simp [primarySuccesses, hp]
      have hfail : primaryFailures primary (ep :: rest)
          = primaryFailures primary rest := by
        simp [primaryFailures, hp]
      have hstore : storeEpochRewards (storeEpochRewards tbl [mkReward ep d])
          (primarySuccesses primary rest)
          = storeEpochRewards tbl (mkReward ep d :: primarySuccesses primary rest) := rfl
      rw [hsucc, hfail, hstore]
      simp
    | none =>
      have hstep : primaryStep primary (tbl, rws, fl) ep = (tbl, rws, fl ++ [ep]) := by
        simp [primaryStep, hp]
      rw [hstep, ih]
      have hsucc : primarySuccesses primary (ep :: rest)
          = primarySuccesses primary rest := by
        simp [primarySuccesses, hp]
      have hfail : primaryFailures primary (ep :: rest)
          = ep :: primaryFailures primary rest := by
        simp [primaryFailures, hp]
      rw [hsucc, hfail]
      simp

theorem primaryPass_spec (primary : Nat → Option PrimaryData) (tbl : RewardTable)
    (rws : List EpochReward) (missing : List Nat) :
    primaryPass primary tbl rws missing =
      (storeEpochRewards tbl (primarySuccesses primary missing),
       rws ++ primarySuccesses primary missing,
       primaryFailures primary missing) := by
  rw [primaryPass, primaryPass_foldl]
  simp

theorem mem_cachedEpochsInRange_iff {β : Type} (tbl : Int → Option β) {s e : Nat}
    (hs : s < two63) (he : e < two63) (ep : Nat) :
    ep ∈ cachedEpochsInRange tbl s e ↔
      s ≤ ep ∧ ep ≤ e ∧ (tbl (u64ToI64 ep)).isSome = true := by
  unfold cachedEpochsInRange
  rw [u64ToI64_of_lt_two63 hs, u64ToI64_of_lt_two63 he]
  constructor
  · intro hx
    obtain ⟨k, hk, rfl⟩ := List.mem_map.mp hx
    obtain ⟨hkr, hks⟩ := List.mem_filter.mp hk
    obtain ⟨hk1, hk2⟩ := mem_intRangeIncl.mp hkr
    have hk0 : 0 ≤ k := le_trans (by exact_mod_cast Nat.zero_le s) hk1
    have hklt : k < (two63 : Int) := lt_of_le_of_lt hk2 (by exact_mod_cast he)
    have hkN : i64ToU64 k = k.toNat := i64ToU64_of_small hk0 hklt
    have hepk : (i64ToU64 k : Int) = k := by rw [hkN]; omega
    refine ⟨by omega, by omega, ?_⟩
    have : u64ToI64 (i64ToU64 k) = k := by
      rw [u64ToI64_of_lt_two63 (by rw [hkN]; omega), hepk]
    rwa [this]
  · rintro ⟨h1, h2, h3⟩
    have hep : ep < two63 := lt_of_le_of_lt h2 he
    refine List.mem_map.mpr ⟨(ep : Int), List.mem_filter.mpr ⟨?_, ?_⟩, ?_⟩
    · exact mem_intRangeIncl.mpr ⟨by exact_mod_cast h1, by exact_mod_cast h2⟩
    · rwa [← u64ToI64_of_lt_two63 hep]
    · rw [i64ToU64_of_small (by exact_mod_cast Nat.zero_le ep) (by exact_mod_cast hep)]
      exact Int.toNat_natCast ep

theorem mem_missingEpochs_iff {β : Type} (tbl : Int → Option β) {s e : Nat}
    (he : e < two63) (ep : Nat) :
    ep ∈ missingEpochsFromCached (cachedEpochsInRange tbl s e) s e ↔
      s ≤ ep ∧ ep ≤ e ∧ tbl (u64ToI64 ep) = none := by
  by_cases hse : s ≤ e
  · have hs : s < two63 := lt_of_le_of_lt hse he
    unfold missingEpochsFromCached
    rw [List.mem_filter, mem_natRangeIncl]
    rw [decide_eq_true_iff]
    rw [mem_cachedEpochsInRange_iff tbl hs he ep]
    constructor
    · rintro ⟨⟨h1, h2⟩, h3⟩
      refine ⟨h1, h2, ?_⟩
      by_contra hne
      exact h3 ⟨h1, h2, by simp [Option.isSome_iff_ne_none, hne]⟩
    · rintro ⟨h1, h2, h3⟩
      exact ⟨⟨h1, h2⟩, by rintro ⟨-, -, hsome⟩; rw [h3] at hsome; cases hsome⟩
  · unfold missingEpochsFromCached
    rw [natRangeIncl_eq_nil_of_lt (by omega)]
    simp only [List.filter_nil, List.not_mem_nil, false_iff]
    rintro ⟨h1, h2, -⟩
    omega

theorem missingEpochs_pairwise {β : Type} (tbl : Int → Option β) (s e : Nat) :
    (missingEpochsFromCached (cachedEpochsInRange tbl s e) s e).Pairwise (· < ·) :=
  (natRangeIncl_pairwise s e).filter _

theorem missingEpochs_eq_nil_of_lt {β : Type} (tbl : Int → Option β) {s e : Nat}
    (h : e < s) :
    missingEpochsFromCached (cachedEpochsInRange tbl s e) s e = [] := by
  unfold missingEpochsFromCached
  rw [natRangeIncl_eq_nil_of_lt h]
  rfl

/-- C4: for every range with a representable end epoch, the missing-epoch
queries (rewards and leader fees) return exactly the epochs of the inclusive
range with no row at all, in strictly ascending order; any stored row,
including a zero-valued negative record, counts as present; and a reversed
range yields the empty list. -/
theorem missing_epoch_queries_exact (tbl : RewardTable) (ltbl : LeaderTable)
    (s e : Nat) (he : e < two63) :
    (∀ ep, ep ∈ getMissingRewardEpochs tbl s e ↔
        s ≤ ep ∧ ep ≤ e ∧ tbl (u64ToI64 ep) = none)
    ∧ (getMissingRewardEpochs tbl s e).Pairwise (· < ·)
    ∧ (∀ ep, ep ∈ getMissingLeaderFeeEpochs ltbl s e ↔
        s ≤ ep ∧ ep ≤ e ∧ ltbl (u64ToI64 ep) = none)
    ∧ (getMissingLeaderFeeEpochs ltbl s e).Pairwise (· < ·)
    ∧ (e < s → getMissingRewardEpochs tbl s e = []
        ∧ getMissingLeaderFeeEpochs ltbl s e = []) :=
  ⟨fun ep => mem_missingEpochs_iff tbl he ep,
   missingEpochs_pairwise tbl s e,
   fun ep => mem_missingEpochs_iff ltbl he ep,
   missingEpochs_pairwise ltbl s e,
   fun h => ⟨missingEpochs_eq_nil_of_lt tbl h, missingEpochs_eq_nil_of_lt ltbl h⟩⟩

/-- Witness for C4 at a concrete store holding a zero-valued negative record
for epoch 901 and a normal record for epoch 903: the hypothesis holds and
the characterization follows; the computed missing set for 900..=903 is
exactly [900, 902], so the negative record is excluded. -/
theorem missing_epoch_queries_exact_witness :
    (903 < two63)
    ∧ ((∀ ep, ep ∈ getMissingRewardEpochs
          (storeEpochRewards emptyRewardTable
            [zeroReward 5 901,
             mkReward 903 { amountLamports := 42, amountSol := 42
                            commission := 5, effectiveSlot := 390096000 }]) 900 903 ↔
        900 ≤ ep ∧ ep ≤ 903 ∧
          (storeEpochRewards emptyRewardTable
            [zeroReward 5 901,
             mkReward 903 { amountLamports := 42, amountSol := 42
                            commission := 5, effectiveSlot := 390096000 }])
            (u64ToI64 ep) = none)
      ∧ (getMissingRewardEpochs
          (storeEpochRewards emptyRewardTable
            [zeroReward 5 901,
             mkReward 903 { amountLamports := 42, amountSol := 42
                            commission := 5, effectiveSlot := 390096000 }]) 900 903).Pairwise
          (· < ·)
      ∧ (∀ ep, ep ∈ getMissingLeaderFeeEpochs emptyLeaderTable 900 903 ↔
          900 ≤ ep ∧ ep ≤ 903 ∧ emptyLeaderTable (u64ToI64 ep) = none)
      ∧ (getMissingLeaderFeeEpochs emptyLeaderTable 900 903).Pairwise (· < ·)
      ∧ (903 < 900 → getMissingRewardEpochs
          (storeEpochRewards emptyRewardTable
            [zeroReward 5 901,
             mkReward 903 { amountLamports := 42, amountSol := 42
                            commission := 5, effectiveSlot := 390096000 }]) 900 903 = []
          ∧ getMissingLeaderFeeEpochs emptyLeaderTable 900 903 = []))
    ∧ getMissingRewardEpochs
        (storeEpochRewards emptyRewardTable
          [zeroReward 5 901,
           mkReward 903 { amountLamports := 42, amountSol := 42
                          commission := 5, effectiveSlot := 390096000 }]) 900 903
        = [900, 902] :=
  ⟨by decide,
   missing_epoch_queries_exact _ emptyLeaderTable 900 903 (by decide),
   by decide⟩

/-- C10: the epoch-to-timestamp arithmetic is saturating, so for every u64
epoch the computed timestamp stays inside the i64 range and never falls
below the representable date range; when it exceeds the largest
representable timestamp the function returns the string "unknown", and
otherwise it returns the formatted civil date. -/
theorem epochToDate_total (epoch : Nat) :
    (i64Min ≤ epochTimestamp epoch ∧ epochTimestamp epoch ≤ i64Max)
    ∧ chronoMinTs ≤ epochTimestamp epoch
    ∧ (chronoMaxTs < epochTimestamp epoch → epochToDate epoch = "unknown")
    ∧ (epochTimestamp epoch ≤ chronoMaxTs → epochToDate epoch
        = formatYmd (civilFromDays ((epochTimestamp epoch).fdiv 86400))) := by
  have hbounds : i64Min ≤ epochTimestamp epoch ∧ epochTimestamp epoch ≤ i64Max :=
    ⟨le_clampI64 _, clampI64_le _⟩
  have hmin : chronoMinTs ≤ epochTimestamp epoch := by
    have hcmin : chronoMinTs = -8334632851200 := by decide
    rw [hcmin]
    simp only [epochTimestamp, satAddI64, satMulI64, satSubI64, clampI64,
      i64Min, i64Max, REFERENCE_EPOCH, REFERENCE_EPOCH_TIMESTAMP,
      EPOCH_DURATION_SECONDS, two63]
    push_cast
    omega
  refine ⟨hbounds, hmin, ?_, ?_⟩
  · intro hover
    unfold epochToDate fromTimestampYmd
    have : ¬ (chronoMinTs ≤ epochTimestamp epoch ∧ epochTimestamp epoch ≤ chronoMaxTs) := by
      rintro ⟨-, hle⟩
      omega
    simp [this]
  · intro hle
    unfold epochToDate fromTimestampYmd
    simp [hmin, hle]

/-- Calibration check of the date model against the unit tests of the
source: epoch 896 maps to 2025-12-16. -/
theorem epochToDate_calibration_896 : epochToDate 896 = "2025-12-16" := by decide

/-- Calibration check: epoch 900 maps to 2025-12-24. -/
theorem epochToDate_calibration_900 : epochToDate 900 = "2025-12-24" := by decide

/-- Calibration check: epoch 904 maps to 2026-01-01. -/
theorem epochToDate_calibration_904 : epochToDate 904 = "2026-01-01" := by decide

/-- Boundary check: a very large epoch saturates and formats as unknown. -/
theorem epochToDate_huge_unknown : epochToDate 123456789123 = "unknown" := by decide

theorem upsertAll_apply_eq_some_cases {β : Type} {items : List (Int × β)} {k : Int}
    {b : β} (tbl : Int → Option β) (h : upsertAll tbl items k = some b) :
    (k, b) ∈ items ∨ tbl k = some b := by
  induction items generalizing tbl with
  | nil => exact Or.inr h
  | cons it rest ih =>
    have hstep : upsertAll tbl (it :: rest) k
        = upsertAll (Function.update tbl it.1 (some it.2)) rest k := rfl
    rw [hstep] at h
    rcases ih (Function.update tbl it.1 (some it.2)) h with hmem | hupd
    · exact Or.inl (List.mem_cons_of_mem it hmem)
    · by_cases hk : k = it.1
      · subst hk
        rw [Function.update_same] at hupd
        obtain rfl : it.2 = b := Option.some.inj hupd
        exact Or.inl (List.mem_cons_self it rest)
      · rw [Function.update_noteq hk] at hupd
        exact Or.inr hupd

theorem intRangeIncl_pairwise (lo hi : Int) : (intRangeIncl lo hi).Pairwise (· < ·) := by
  unfold intRangeIncl
  exact (List.pairwise_lt_range _).map _ (fun a b h => by omega)

theorem i64ToU64_lt_of_lt {k j : Int} (hk : 0 ≤ k) (hj : j < (two63 : Int))
    (h : k < j) : i64ToU64 k < i64ToU64 j := by
  rw [i64ToU64_of_small hk (lt_trans h hj), i64ToU64_of_small (le_trans hk h.le) hj]
  omega

theorem rowToReward_rewardToRow {r : EpochReward} (h1 : r.epoch < two64)
    (h2 : r.amount_lamports < two64) (h3 : r.commission < 256)
    (h4 : r.effective_slot < two64) :
    rowToReward (u64ToI64 r.epoch) (rewardToRow r) = r := by
  obtain ⟨ep, al, aso, cm, es, dt⟩ := r
  simp only at h1 h2 h3 h4
  have hcm : i64ToU8 ((cm : Int) % 256) = cm := by
    unfold i64ToU8
    rw [Int.emod_emod_of_dvd _ dvd_rfl,
      Int.emod_eq_of_lt (by exact_mod_cast Nat.zero_le cm) (by exact_mod_cast h3)]
    exact Int.toNat_natCast cm
  unfold rowToReward rewardToRow
  simp [i64ToU64_u64ToI64 h1, i64ToU64_u64ToI64 h2, i64ToU64_u64ToI64 h4, hcm]

/-- Keys written by `storeEpochRewards` into the empty table are exactly the
cast epochs of the batch. -/
theorem store_empty_eq_some {rs : List EpochReward} {k : Int} {d : RewardRowData}
    (h : storeEpochRewards emptyRewardTable rs k = some d) :
    ∃ r ∈ rs, k = u64ToI64 r.epoch ∧ d = rewardToRow r := by
  rcases upsertAll_apply_eq_some_cases (fun _ => none) h with hmem | hempty
  · obtain ⟨r, hr, heq⟩ := List.mem_map.mp hmem
    obtain ⟨hk, hd⟩ := Prod.mk.inj heq
    exact ⟨r, hr, hk.symm, hd.symm⟩
  · cases hempty

/-- C9: storing a batch of reward facts with pairwise-distinct epochs lying
in a range into a fresh store, then reading the same inclusive range,
returns exactly those records with all field values intact: in particular
the integer lamport amount and the carried f64 SOL amount round-trip without
loss. -/
theorem reward_store_roundtrip (rs : List EpochReward) (s e : Nat)
    (hnd : (rs.map (fun r => r.epoch)).Nodup)
    (hrange : ∀ r ∈ rs, s ≤ r.epoch ∧ r.epoch ≤ e)
    (he : e < two63)
    (hwf : ∀ r ∈ rs, r.amount_lamports < two64 ∧ r.commission < 256
      ∧ r.effective_slot < two64) :
    (getEpochRewards (storeEpochRewards emptyRewardTable rs) s e).Perm rs := by
  have h6364 : two63 < two64 := by norm_num [two63, two64]
  have hepoch64 : ∀ r ∈ rs, r.epoch < two64 := by
    intro r hr
    exact lt_trans (lt_of_le_of_lt (hrange r hr).2 he) h6364
  -- round trip of every batch record
  have hround : ∀ r ∈ rs, rowToReward (u64ToI64 r.epoch) (rewardToRow r) = r := by
    intro r hr
    exact rowToReward_rewardToRow (hepoch64 r hr) (hwf r hr).1 (hwf r hr).2.1
      (hwf r hr).2.2
  -- key list of the batch is duplicate free
  have hkeyNodup : (rs.map (fun x => u64ToI64 x.epoch)).Nodup := by
    have hmm : rs.map (fun x => u64ToI64 x.epoch)
        = (rs.map (fun x => x.epoch)).map u64ToI64 := by
      simp [List.map_map, Function.comp]
    rw [hmm]
    refine hnd.map_on ?_
    intro x hx y hy hxy
    obtain ⟨rx, hrx, rfl⟩ := List.mem_map.mp hx
    obtain ⟨ry, hry, rfl⟩ := List.mem_map.mp hy
    exact u64ToI64_injOn (hepoch64 rx hrx) (hepoch64 ry hry) hxy
  have hrsNodup : rs.Nodup := List.Nodup.of_map _ hnd
  -- membership in the read-back list
  have hmemIff : ∀ x, x ∈ getEpochRewards (storeEpochRewards emptyRewardTable rs) s e
      ↔ x ∈ rs := by
    intro x
    unfold getEpochRewards
    rw [List.mem_filterMap]
    constructor
    · rintro ⟨k, hkmem, hfk⟩
      obtain ⟨d, htbl, hxd⟩ := Option.map_eq_some'.mp hfk
      obtain ⟨r, hr, rfl, rfl⟩ := store_empty_eq_some htbl
      rw [← hxd, hround r hr]
      exact hr
    · intro hx
      have hs63 : s < two63 := lt_of_le_of_lt (le_trans (hrange x hx).1 (hrange x hx).2) he
      refine ⟨u64ToI64 x.epoch, ?_, ?_⟩
      · rw [mem_intRangeIncl, u64ToI64_of_lt_two63 hs63, u64ToI64_of_lt_two63 he,
          u64ToI64_of_lt_two63 (lt_of_le_of_lt (hrange x hx).2 he)]
        exact ⟨by exact_mod_cast (hrange x hx).1, by exact_mod_cast (hrange x hx).2⟩
      · rw [storeEpochRewards_apply_of_mem _ hkeyNodup hx]
        simp only [Option.map_some']
        rw [hround x hx]
    -- no-dup of the read-back list
  have hresNodup : (getEpochRewards (storeEpochRewards emptyRewardTable rs) s e).Nodup := by
    unfold getEpochRewards
    rw [List.Nodup]
    rw [List.pairwise_filterMap]
    refine (intRangeIncl_pairwise _ _).imp_of_mem ?_
    intro k j hk hj hlt b hb b' hb'
    simp only [Option.mem_def, Option.map_eq_some'] at hb hb'
    obtain ⟨d, htd, rfl⟩ := hb
    obtain ⟨d', htd', rfl⟩ := hb'
    obtain ⟨r, hr, rfl, rfl⟩ := store_empty_eq_some htd
    obtain ⟨r', hr', rfl, rfl⟩ := store_empty_eq_some htd'
    intro hcontra
    have hek : (rowToReward (u64ToI64 r.epoch) (rewardToRow r)).epoch
        = (rowToReward (u64ToI64 r'.epoch) (rewardToRow r')).epoch := by
      rw [hcontra]
    rw [hround r hr, hround r' hr'] at hek
    have : u64ToI64 r.epoch = u64ToI64 r'.epoch := by rw [hek]
    omega
  exact (List.perm_ext_iff_of_nodup hresNodup hrsNodup).mpr hmemIff

/-- Witness for C9 at a concrete two-record batch with a large lamport
amount and a fractional SOL amount. -/
theorem reward_store_roundtrip_witness :
    (([{ epoch := 900, amount_lamports := 123456789123456789, amount_sol := 123456789 / 1000000000
         commission := 5, effective_slot := 388800000, date := some "2025-12-24" },
       { epoch := 901, amount_lamports := 0, amount_sol := 0
         commission := 5, effective_slot := 389232000, date := some "2025-12-26" }]
        : List EpochReward).map (fun r => r.epoch)).Nodup
    ∧ (getEpochRewards (storeEpochRewards emptyRewardTable
        [{ epoch := 900, amount_lamports := 123456789123456789, amount_sol := 123456789 / 1000000000
           commission := 5, effective_slot := 388800000, date := some "2025-12-24" },
         { epoch := 901, amount_lamports := 0, amount_sol := 0
           commission := 5, effective_slot := 389232000, date := some "2025-12-26" }]) 900 903).Perm
        [{ epoch := 900, amount_lamports := 123456789123456789, amount_sol := 123456789 / 1000000000
           commission := 5, effective_slot := 388800000, date := some "2025-12-24" },
         { epoch := 901, amount_lamports := 0, amount_sol := 0
           commission := 5, effective_slot := 389232000, date := some "2025-12-26" }] :=
  ⟨by decide,
   reward_store_roundtrip _ 900 903 (by decide) (by decide) (by decide) (by decide)⟩

/-- Every record fetched by the primary pass carries the epoch it was
fetched for. -/
theorem primarySuccesses_epoch_mem {primary : Nat → Option PrimaryData}
    {missing : List Nat} {x : EpochReward} (hx : x ∈ primarySuccesses primary missing) :
    x.epoch ∈ missing := by
  obtain ⟨m, hm, hfx⟩ := List.mem_filterMap.mp hx
  obtain ⟨d, -, rfl⟩ := Option.map_eq_some'.mp hfx
  exact hm

/-- Failures of the primary pass come from the missing set. -/
theorem primaryFailures_subset {primary : Nat → Option PrimaryData}
    {missing : List Nat} {f : Nat} (hf : f ∈ primaryFailures primary missing) :
    f ∈ missing :=
  List.mem_of_mem_filter hf

/-- C1 amended: on a reconciliation run without the forced-refresh flag, the
rewards pipeline never writes (or modifies) any store row whose epoch is at
or above the chain current epoch — missing epochs, Dune-filled epochs and
negative records all lie at or below `min end_epoch (current−1)` and the
current-epoch live fetch is never passed to the store; and the forced-refresh
leader-fee path filters its write set to epochs strictly below the current
epoch.  (The forced-refresh reward and MEV paths do not filter; see the
counterexample.) -/
theorem volatility_invariant_cached (tbl : RewardTable) (ltbl : LeaderTable)
    (s e current : Nat) (primary : Nat → Option PrimaryData)
    (dune : String → Option (List EpochReward)) (duneKey : Bool) (commission : Nat)
    (fetchedFees : List EpochLeaderFees)
    (hc : 0 < current) (he : e < two63) :
    (∀ ep, current ≤ ep → ep < two64 →
      (fetchRewardsWithCache tbl s e current primary dune duneKey commission).store
        (u64ToI64 ep) = tbl (u64ToI64 ep))
    ∧ (∀ ep, current ≤ ep → ep < two64 →
      (fetchLeaderFeesNoCache ltbl fetchedFees current).1 (u64ToI64 ep)
        = ltbl (u64ToI64 ep)) := by
  constructor
  · intro ep hcur hep
    have hce63 : min e (current - 1) < two63 := lt_of_le_of_lt (min_le_left _ _) he
    have hmissing : ∀ m ∈ getMissingRewardEpochs tbl s (min e (current - 1)),
        m < current := by
      intro m hm
      have := (mem_missingEpochs_iff tbl hce63 m).mp hm
      omega
    have hne : ∀ (w : EpochReward), w.epoch < current →
        u64ToI64 w.epoch ≠ u64ToI64 ep := by
      intro w hw heq
      have hW : w.epoch < two64 := by omega
      have := u64ToI64_injOn hW hep heq
      omega
    have hsucc : ∀ x ∈ primarySuccesses primary
        (getMissingRewardEpochs tbl s (min e (current - 1))), x.epoch < current :=
      fun x hx => hmissing _ (primarySuccesses_epoch_mem hx)
    have hfail : ∀ f ∈ primaryFailures primary
        (getMissingRewardEpochs tbl s (min e (current - 1))), f < current :=
      fun f hf => hmissing f (primaryFailures_subset hf)
    unfold fetchRewardsWithCache
    dsimp only
    rw [primaryPass_spec]
    dsimp only
    rcases hpd : prepareDuneFallback (primaryFailures primary
        (getMissingRewardEpochs tbl s (min e (current - 1)))) duneKey with - | startDate
    · dsimp only
      rw [storeEpochRewards_apply_of_forall_ne tbl (fun w hw => hne w (hsucc w hw))]
    · dsimp only
      rcases hd : dune startDate with - | duneRewards
      · dsimp only
        rw [storeEpochRewards_apply_of_forall_ne tbl (fun w hw => hne w (hsucc w hw))]
      · dsimp only
        by_cases hneed : (duneRewards.filter (fun r => decide (r.epoch ∈
            primaryFailures primary
              (getMissingRewardEpochs tbl s (min e (current - 1)))))).isEmpty
        · rw [if_pos hneed]
          dsimp only
          rw [storeEpochRewards_apply_of_forall_ne]
          · rw [storeEpochRewards_apply_of_forall_ne tbl
              (fun w hw => hne w (hsucc w hw))]
          · intro w hw
            obtain ⟨f, hf, rfl⟩ := List.mem_map.mp hw
            exact hne _ (hfail f hf)
        · rw [if_neg hneed]
          dsimp only
          rw [storeEpochRewards_apply_of_forall_ne]
          · rw [storeEpochRewards_apply_of_forall_ne]
            · rw [storeEpochRewards_apply_of_forall_ne tbl
                (fun w hw => hne w (hsucc w hw))]
            · intro w hw
              have : w.epoch ∈ primaryFailures primary
                  (getMissingRewardEpochs tbl s (min e (current - 1))) := by
                have := List.mem_filter.mp hw
                exact decide_eq_true_iff.mp this.2
              exact hne w (hfail _ this)
          · intro w hw
            obtain ⟨f, hf, rfl⟩ := List.mem_map.mp hw
            exact hne _ (hfail f (List.mem_of_mem_filter hf))
  · intro ep hcur hep
    unfold fetchLeaderFeesNoCache
    dsimp only
    refine upsertAll_apply_of_forall_ne ltbl ?_
    intro it hit
    obtain ⟨f, hf, rfl⟩ := List.mem_map.mp hit
    have hflt : f.epoch < current := by
      have := List.mem_filter.mp hf
      exact decide_eq_true_iff.mp this.2
    intro heq
    have hW : f.epoch < two64 := by omega
    have := u64ToI64_injOn hW hep heq
    omega

/-- Witness for C1 at a concrete cached run: range 900..=904 with current
epoch 904; the primary answers every completed epoch and also reports a
pending value for the in-flight epoch 904, yet the store row for epoch 904
stays absent. -/
theorem volatility_invariant_cached_witness :
    (0 < 904) ∧ (904 < two63)
    ∧ ((∀ ep, 904 ≤ ep → ep < two64 →
        (fetchRewardsWithCache emptyRewardTable 900 904 904
          (fun _ => some { amountLamports := 7, amountSol := 7
                           commission := 5, effectiveSlot := 390528000 })
          (fun _ => none) false 5).store (u64ToI64 ep) = emptyRewardTable (u64ToI64 ep))
      ∧ (∀ ep, 904 ≤ ep → ep < two64 →
        (fetchLeaderFeesNoCache emptyLeaderTable
          [{ epoch := 904, leader_slots := 10, blocks_produced := 9, skipped_slots := 1
             total_fees_lamports := 1000, total_fees_sol := 1, date := none }] 904).1
          (u64ToI64 ep) = emptyLeaderTable (u64ToI64 ep))) :=
  ⟨by decide, by decide,
   volatility_invariant_cached emptyRewardTable emptyLeaderTable 900 904 904
     (fun _ => some { amountLamports := 7, amountSol := 7
                      commission := 5, effectiveSlot := 390528000 })
     (fun _ => none) false 5
     [{ epoch := 904, leader_slots := 10, blocks_produced := 9, skipped_slots := 1
        total_fees_lamports := 1000, total_fees_sol := 1, date := none }]
     (by decide) (by decide)⟩

/-- The failure set of a cached rewards run is exactly the set of missing
epochs the primary could not fill. -/
theorem fetchRewardsWithCache_failures (tbl : RewardTable)
    (s e current : Nat) (primary : Nat → Option PrimaryData)
    (dune : String → Option (List EpochReward)) (duneKey : Bool) (commission : Nat) :
    (fetchRewardsWithCache tbl s e current primary dune duneKey commission).failures
      = primaryFailures primary (getMissingRewardEpochs tbl s (min e (current - 1))) := by
  unfold fetchRewardsWithCache
  dsimp only
  rw [primaryPass_spec]

/-- Closed form of the final store of a cached rewards run. -/
theorem fetchRewardsWithCache_store_spec (tbl : RewardTable)
    (s e current : Nat) (primary : Nat → Option PrimaryData)
    (dune : String → Option (List EpochReward)) (duneKey : Bool) (commission : Nat) :
    (fetchRewardsWithCache tbl s e current primary dune duneKey commission).store
      = (let F := primaryFailures primary
            (getMissingRewardEpochs tbl s (min e (current - 1)))
         let tbl1 := storeEpochRewards tbl (primarySuccesses primary
            (getMissingRewardEpochs tbl s (min e (current - 1))))
         match prepareDuneFallback F duneKey with
         | none => tbl1
         | some startDate =>
           match dune startDate with
           | none => tbl1
           | some duneRewards =>
             let needed := duneRewards.filter (fun r => decide (r.epoch ∈ F))
             if needed.isEmpty then
               storeEpochRewards tbl1 (F.map (zeroReward commission))
             else
               storeEpochRewards (storeEpochRewards tbl1 needed)
                 ((F.filter (fun ep => decide (ep ∉ needed.map (fun r => r.epoch)))).map
                   (zeroReward commission))) := by
  unfold fetchRewardsWithCache
  dsimp only
  rw [primaryPass_spec]
  dsimp only
  rcases prepareDuneFallback (primaryFailures primary
      (getMissingRewardEpochs tbl s (min e (current - 1)))) duneKey with - | startDate
  · rfl
  · dsimp only
    rcases dune startDate with - | duneRewards
    · rfl
    · dsimp only
      by_cases hneed : (duneRewards.filter (fun r => decide (r.epoch ∈
          primaryFailures primary
            (getMissingRewardEpochs tbl s (min e (current - 1)))))).isEmpty
      · rw [if_pos hneed, if_pos hneed]
      · rw [if_neg hneed, if_neg hneed]

/-- The Dune query dates issued by a cached rewards run: the single prepared
start date, when the fallback fires at all. -/
theorem fetchRewardsWithCache_duneQueries_spec (tbl : RewardTable)
    (s e current : Nat) (primary : Nat → Option PrimaryData)
    (dune : String → Option (List EpochReward)) (duneKey : Bool) (commission : Nat) :
    (fetchRewardsWithCache tbl s e current primary dune duneKey commission).duneQueries
      = (match prepareDuneFallback (primaryFailures primary
            (getMissingRewardEpochs tbl s (min e (current - 1)))) duneKey with
         | none => []
         | some startDate => [startDate]) := by
  unfold fetchRewardsWithCache
  dsimp only
  rw [primaryPass_spec]
  dsimp only
  rcases prepareDuneFallback (primaryFailures primary
      (getMissingRewardEpochs tbl s (min e (current - 1)))) duneKey with - | startDate
  · rfl
  · dsimp only
    rcases dune startDate with - | duneRewards
    · rfl
    · dsimp only
      by_cases hneed : (duneRewards.filter (fun r => decide (r.epoch ∈
          primaryFailures primary
            (getMissingRewardEpochs tbl s (min e (current - 1)))))).isEmpty
      · rw [if_pos hneed]
      · rw [if_neg hneed]

/-- Members of the primary success list: a record fetched for a missing
epoch, whose primary call answered. -/
theorem primarySuccesses_mem_spec {primary : Nat → Option PrimaryData}
    {missing : List Nat} {x : EpochReward} (hx : x ∈ primarySuccesses primary missing) :
    x.epoch ∈ missing ∧ ∃ d, primary x.epoch = some d ∧ x = mkReward x.epoch d := by
  obtain ⟨m, hm, hfx⟩ := List.mem_filterMap.mp hx
  obtain ⟨d, hd, rfl⟩ := Option.map_eq_some'.mp hfx
  exact ⟨hm, d, hd, rfl⟩

/-- Members of the failure set answered none. -/
theorem primaryFailures_mem_spec {primary : Nat → Option PrimaryData}
    {missing : List Nat} {f : Nat} (hf : f ∈ primaryFailures primary missing) :
    f ∈ missing ∧ primary f = none := by
  have := List.mem_filter.mp hf
  exact ⟨this.1, Option.isNone_iff_eq_none.mp (by simpa using this.2)⟩

/-- C2: when no secondary source is configured, or the secondary bulk query
itself fails, every epoch of the primary-failure set remains unwritten, so
the next missing-epoch query still returns it; in particular no zero-valued
negative record is created for it. -/
theorem no_negative_caching_without_secondary (tbl : RewardTable)
    (s e current : Nat) (primary : Nat → Option PrimaryData)
    (dune : String → Option (List EpochReward)) (duneKey : Bool) (commission : Nat)
    (he : e < two63)
    (hsec : duneKey = false ∨ ∀ d, dune d = none) :
    ∀ ep ∈ (fetchRewardsWithCache tbl s e current primary dune duneKey commission).failures,
      (fetchRewardsWithCache tbl s e current primary dune duneKey commission).store
        (u64ToI64 ep) = none
      ∧ ep ∈ getMissingRewardEpochs
          (fetchRewardsWithCache tbl s e current primary dune duneKey commission).store
          s (min e (current - 1)) := by
  intro ep hep
  rw [fetchRewardsWithCache_failures] at hep
  have hce63 : min e (current - 1) < two63 := lt_of_le_of_lt (min_le_left _ _) he
  obtain ⟨hmem, hnone⟩ := primaryFailures_mem_spec hep
  obtain ⟨hs, hle, htbl⟩ := (mem_missingEpochs_iff tbl hce63 ep).mp hmem
  have hep63 : ep < two63 := lt_of_le_of_lt hle hce63
  -- under the hypothesis, the store after the run is just the primary writes
  have hstore :
      (fetchRewardsWithCache tbl s e current primary dune duneKey commission).store
        = storeEpochRewards tbl (primarySuccesses primary
            (getMissingRewardEpochs tbl s (min e (current - 1)))) := by
    rw [fetchRewardsWithCache_store_spec]
    dsimp only
    rcases hsec with rfl | hfails
    · have : prepareDuneFallback (primaryFailures primary
          (getMissingRewardEpochs tbl s (min e (current - 1)))) false = none := by
        unfold prepareDuneFallback
        split <;> rfl
      rw [this]
    · rcases hpd : prepareDuneFallback (primaryFailures primary
          (getMissingRewardEpochs tbl s (min e (current - 1)))) duneKey with - | startDate
      · rfl
      · dsimp only
        rw [hfails startDate]
  -- the primary pass never wrote the failed epoch
  have hkey : storeEpochRewards tbl (primarySuccesses primary
      (getMissingRewardEpochs tbl s (min e (current - 1)))) (u64ToI64 ep)
        = tbl (u64ToI64 ep) := by
    refine storeEpochRewards_apply_of_forall_ne tbl ?_
    intro x hx heq
    obtain ⟨hxmem, d, hxd, -⟩ := primarySuccesses_mem_spec hx
    have hx63 : x.epoch < two63 :=
      lt_of_le_of_lt ((mem_missingEpochs_iff tbl hce63 x.epoch).mp hxmem).2.1 hce63
    have hxep : x.epoch = ep := u64ToI64_injOn
      (lt_trans hx63 (by norm_num [two63, two64]))
      (lt_trans hep63 (by norm_num [two63, two64])) heq
    rw [hxep, hnone] at hxd
    cases hxd
  refine ⟨by rw [hstore, hkey, htbl], ?_⟩
  rw [hstore]
  refine (mem_missingEpochs_iff _ hce63 ep).mpr ⟨hs, hle, ?_⟩
  rw [hkey, htbl]

/-- Witness for C2: the scenario of the spec — epochs 900..=903 requested,
current epoch 904, the primary fails on 902, no Dune key configured; epoch
902 stays unwritten and still missing. -/
theorem no_negative_caching_without_secondary_witness :
    (903 < two63) ∧ (false = false ∨ ∀ d,
      (fun _ : String => (none : Option (List EpochReward))) d = none)
    ∧ (902 ∈ (fetchRewardsWithCache emptyRewardTable 900 903 904 primScenario
        (fun _ => none) false 5).failures)
    ∧ ((fetchRewardsWithCache emptyRewardTable 900 903 904 primScenario
        (fun _ => none) false 5).store (u64ToI64 902) = none
      ∧ 902 ∈ getMissingRewardEpochs
          (fetchRewardsWithCache emptyRewardTable 900 903 904 primScenario
            (fun _ => none) false 5).store 900 (min 903 (904 - 1))) :=
  ⟨by decide, Or.inl rfl, by decide,
   no_negative_caching_without_secondary emptyRewardTable 900 903 904 primScenario
     (fun _ => none) false 5 (by decide) (Or.inl rfl) 902 (by decide)⟩

theorem getMissingRewardEpochs_nodup (tbl : RewardTable) (s e : Nat) :
    (getMissingRewardEpochs tbl s e).Nodup :=
  (natRangeIncl_nodup s e).filter _

theorem natKeys_nodup {l : List Nat} (hnd : l.Nodup) (hb : ∀ x ∈ l, x < two63) :
    (l.map u64ToI64).Nodup := by
  refine hnd.map_on ?_
  intro x hx y hy hxy
  exact u64ToI64_injOn (lt_trans (hb x hx) (by norm_num [two63, two64]))
    (lt_trans (hb y hy) (by norm_num [two63, two64])) hxy

/-- The fallback fires exactly on a non-empty failure set with a configured
key, and queries from the date of the earliest failed epoch. -/
theorem prepareDuneFallback_some {l : List Nat} (hne : l ≠ []) :
    prepareDuneFallback l true = some (epochToDate (listMinD l)) := by
  unfold prepareDuneFallback
  rw [if_neg (by simpa [List.isEmpty_iff] using hne)]
  rfl

/-- C3: when the primary pass fails on a non-empty set of epochs and the
secondary source is configured and answers, the run issues exactly one bulk
query dated at the earliest failed epoch; every failed epoch present in the
response is stored as that normal fact, every failed epoch absent from the
response is stored as the zero-valued negative record; afterwards no epoch
of the completed range is missing. -/
theorem secondary_fallback_fills_failures (tbl : RewardTable)
    (s e current : Nat) (primary : Nat → Option PrimaryData)
    (dune : String → Option (List EpochReward)) (commission : Nat)
    (resp : List EpochReward)
    (he : e < two63)
    (hfail : (fetchRewardsWithCache tbl s e current primary dune true commission).failures ≠ [])
    (hresp : dune (epochToDate (listMinD
        (fetchRewardsWithCache tbl s e current primary dune true commission).failures))
      = some resp)
    (hrespNodup : (resp.map (fun r => r.epoch)).Nodup) :
    (fetchRewardsWithCache tbl s e current primary dune true commission).duneQueries
        = [epochToDate (listMinD
            (fetchRewardsWithCache tbl s e current primary dune true commission).failures)]
    ∧ (∀ ep ∈ (fetchRewardsWithCache tbl s e current primary dune true commission).failures,
        (fetchRewardsWithCache tbl s e current primary dune true commission).store
            (u64ToI64 ep)
          = some (match resp.find? (fun r => r.epoch == ep) with
                  | some r => rewardToRow r
                  | none => rewardToRow (zeroReward commission ep)))
    ∧ getMissingRewardEpochs
        (fetchRewardsWithCache tbl s e current primary dune true commission).store
        s (min e (current - 1)) = [] := by
  have hce63 : min e (current - 1) < two63 := lt_of_le_of_lt (min_le_left _ _) he
  rw [fetchRewardsWithCache_failures] at hfail hresp ⊢
  have hMnodup : (getMissingRewardEpochs tbl s (min e (current - 1))).Nodup :=
    getMissingRewardEpochs_nodup tbl s _
  have hFnodup : (primaryFailures primary
      (getMissingRewardEpochs tbl s (min e (current - 1)))).Nodup :=
    hMnodup.filter _
  have hFmem : ∀ f ∈ primaryFailures primary
      (getMissingRewardEpochs tbl s (min e (current - 1))),
      s ≤ f ∧ f ≤ min e (current - 1) ∧ tbl (u64ToI64 f) = none ∧ primary f = none := by
    intro f hf
    obtain ⟨hfm, hfn⟩ := primaryFailures_mem_spec hf
    obtain ⟨h1, h2, h3⟩ := (mem_missingEpochs_iff tbl hce63 f).mp hfm
    exact ⟨h1, h2, h3, hfn⟩
  have hF63 : ∀ f ∈ primaryFailures primary
      (getMissingRewardEpochs tbl s (min e (current - 1))), f < two63 :=
    fun f hf => lt_of_le_of_lt (hFmem f hf).2.1 hce63
  have hpd := prepareDuneFallback_some hfail
  -- the final store, with the fallback resolved
  have hstore :
      (fetchRewardsWithCache tbl s e current primary dune true commission).store
        = (if (resp.filter (fun r => decide (r.epoch ∈ primaryFailures primary
              (getMissingRewardEpochs tbl s (min e (current - 1)))))).isEmpty then
             storeEpochRewards (storeEpochRewards tbl (primarySuccesses primary
               (getMissingRewardEpochs tbl s (min e (current - 1)))))
               ((primaryFailures primary
                 (getMissingRewardEpochs tbl s (min e (current - 1)))).map
                   (zeroReward commission))
           else
             storeEpochRewards (storeEpochRewards (storeEpochRewards tbl
               (primarySuccesses primary
                 (getMissingRewardEpochs tbl s (min e (current - 1)))))
               (resp.filter (fun r => decide (r.epoch ∈ primaryFailures primary
                 (getMissingRewardEpochs tbl s (min e (current - 1)))))))
               (((primaryFailures primary
                 (getMissingRewardEpochs tbl s (min e (current - 1)))).filter
                   (fun ep2 => decide (ep2 ∉ (resp.filter (fun r => decide (r.epoch ∈
                     primaryFailures primary
                       (getMissingRewardEpochs tbl s (min e (current - 1)))))).map
                         (fun r => r.epoch)))).map (zeroReward commission))) := by
    rw [fetchRewardsWithCache_store_spec]
    dsimp only
    rw [hpd]
    dsimp only
    rw [hresp]
  refine ⟨?_, ?_, ?_⟩
  · rw [fetchRewardsWithCache_duneQueries_spec, hpd]
  · intro ep hep
    obtain ⟨hs, hle, htblnone, hprim⟩ := hFmem ep hep
    have hep63 : ep < two63 := lt_of_le_of_lt hle hce63
    -- the primary pass left the key empty
    have htbl1 : storeEpochRewards tbl (primarySuccesses primary
        (getMissingRewardEpochs tbl s (min e (current - 1)))) (u64ToI64 ep)
          = tbl (u64ToI64 ep) := by
      refine storeEpochRewards_apply_of_forall_ne tbl ?_
      intro x hx heq
      obtain ⟨hxmem, d, hxd, -⟩ := primarySuccesses_mem_spec hx
      have hx63 : x.epoch < two63 :=
        lt_of_le_of_lt ((mem_missingEpochs_iff tbl hce63 x.epoch).mp hxmem).2.1 hce63
      have hxep : x.epoch = ep := u64ToI64_injOn
        (lt_trans hx63 (by norm_num [two63, two64]))
        (lt_trans hep63 (by norm_num [two63, two64])) heq
      rw [hxep, hprim] at hxd
      cases hxd
    rw [hstore]
    by_cases hneed : (resp.filter (fun r => decide (r.epoch ∈ primaryFailures primary
        (getMissingRewardEpochs tbl s (min e (current - 1)))))).isEmpty
    · rw [if_pos hneed]
      have hfind : resp.find? (fun r => r.epoch == ep) = none := by
        rw [List.find?_eq_none]
        intro r hr hrepq
        have hrep : r.epoch = ep := by simpa using hrepq
        have : r ∈ resp.filter (fun r => decide (r.epoch ∈ primaryFailures primary
            (getMissingRewardEpochs tbl s (min e (current - 1))))) :=
          List.mem_filter.mpr ⟨hr, decide_eq_true_iff.mpr (hrep ▸ hep)⟩
        rw [List.isEmpty_iff] at hneed
        rw [hneed] at this
        cases this
      rw [hfind]
      have hkeys : (((primaryFailures primary
          (getMissingRewardEpochs tbl s (min e (current - 1)))).map
            (zeroReward commission)).map (fun x => u64ToI64 x.epoch)).Nodup := by
        have heq2 : ((primaryFailures primary
            (getMissingRewardEpochs tbl s (min e (current - 1)))).map
              (zeroReward commission)).map (fun x => u64ToI64 x.epoch)
            = (primaryFailures primary
                (getMissingRewardEpochs tbl s (min e (current - 1)))).map u64ToI64 := by
          simp [List.map_map, Function.comp, zeroReward]
        rw [heq2]
        exact natKeys_nodup hFnodup hF63
      have hmem2 : zeroReward commission ep ∈ (primaryFailures primary
          (getMissingRewardEpochs tbl s (min e (current - 1)))).map
            (zeroReward commission) := List.mem_map.mpr ⟨ep, hep, rfl⟩
      have := storeEpochRewards_apply_of_mem (storeEpochRewards tbl
        (primarySuccesses primary (getMissingRewardEpochs tbl s (min e (current - 1)))))
        hkeys hmem2
      simpa [zeroReward] using this
    · rw [if_neg hneed]
      have hneededKeys : ((resp.filter (fun r => decide (r.epoch ∈ primaryFailures primary
          (getMissingRewardEpochs tbl s (min e (current - 1)))))).map
            (fun x => u64ToI64 x.epoch)).Nodup := by
        have heq2 : (resp.filter (fun r => decide (r.epoch ∈ primaryFailures primary
            (getMissingRewardEpochs tbl s (min e (current - 1)))))).map
              (fun x => u64ToI64 x.epoch)
            = ((resp.filter (fun r => decide (r.epoch ∈ primaryFailures primary
                (getMissingRewardEpochs tbl s (min e (current - 1)))))).map
                  (fun r => r.epoch)).map u64ToI64 := by
          simp [List.map_map, Function.comp]
        rw [heq2]
        refine natKeys_nodup ?_ ?_
        · exact List.Nodup.sublist ((List.filter_sublist resp).map _) hrespNodup
        · intro x hx
          obtain ⟨r, hr, rfl⟩ := List.mem_map.mp hx
          exact hF63 _ (decide_eq_true_iff.mp (List.mem_filter.mp hr).2)
      rcases hfind : resp.find? (fun r => r.epoch == ep) with - | r
      · -- absent from the response: the zero record is written last
        rw [hfind]
        have hepnot : ep ∉ (resp.filter (fun r => decide (r.epoch ∈ primaryFailures primary
            (getMissingRewardEpochs tbl s (min e (current - 1)))))).map
              (fun r => r.epoch) := by
          intro hmem3
          obtain ⟨r, hr, hrep⟩ := List.mem_map.mp hmem3
          have := List.find?_eq_none.mp hfind r (List.mem_of_mem_filter hr)
          simp [hrep] at this
        have hkeys : (((primaryFailures primary
            (getMissingRewardEpochs tbl s (min e (current - 1)))).filter
              (fun ep2 => decide (ep2 ∉ (resp.filter (fun r => decide (r.epoch ∈
                primaryFailures primary
                  (getMissingRewardEpochs tbl s (min e (current - 1)))))).map
                    (fun r => r.epoch)))).map (zeroReward commission)
            |>.map (fun x => u64ToI64 x.epoch)).Nodup := by
          have heq2 : (((primaryFailures primary
              (getMissingRewardEpochs tbl s (min e (current - 1)))).filter
                (fun ep2 => decide (ep2 ∉ (resp.filter (fun r => decide (r.epoch ∈
                  primaryFailures primary
                    (getMissingRewardEpochs tbl s (min e (current - 1)))))).map
                      (fun r => r.epoch)))).map (zeroReward commission)
              |>.map (fun x => u64ToI64 x.epoch))
              = ((primaryFailures primary
                  (getMissingRewardEpochs tbl s (min e (current - 1)))).filter
                    (fun ep2 => decide (ep2 ∉ (resp.filter (fun r => decide (r.epoch ∈
                      primaryFailures primary
                        (getMissingRewardEpochs tbl s (min e (current - 1)))))).map
                          (fun r => r.epoch)))).map u64ToI64 := by
            simp [List.map_map, Function.comp, zeroReward]
          rw [heq2]
          exact natKeys_nodup (hFnodup.filter _)
            (fun x hx => hF63 x (List.mem_of_mem_filter hx))
        have hmem3 : zeroReward commission ep ∈ ((primaryFailures primary
            (getMissingRewardEpochs tbl s (min e (current - 1)))).filter
              (fun ep2 => decide (ep2 ∉ (resp.filter (fun r => decide (r.epoch ∈
                primaryFailures primary
                  (getMissingRewardEpochs tbl s (min e (current - 1)))))).map
                    (fun r => r.epoch)))).map (zeroReward commission) :=
          List.mem_map.mpr ⟨ep,
            List.mem_filter.mpr ⟨hep, decide_eq_true_iff.mpr hepnot⟩, rfl⟩
        have := storeEpochRewards_apply_of_mem (storeEpochRewards
          (storeEpochRewards tbl (primarySuccesses primary
            (getMissingRewardEpochs tbl s (min e (current - 1)))))
          (resp.filter (fun r => decide (r.epoch ∈ primaryFailures primary
            (getMissingRewardEpochs tbl s (min e (current - 1)))))))
          hkeys hmem3
        simpa [zeroReward] using this
      · -- present in the response: the bulk record is written
        rw [hfind]
        have hrmem : r ∈ resp := List.mem_of_find?_eq_some hfind
        have hrep : r.epoch = ep := by
          have := List.find?_some hfind
          simpa using this
        have hrneeded : r ∈ resp.filter (fun r => decide (r.epoch ∈ primaryFailures primary
            (getMissingRewardEpochs tbl s (min e (current - 1))))) :=
          List.mem_filter.mpr ⟨hrmem, decide_eq_true_iff.mpr (hrep ▸ hep)⟩
        -- the zero pass does not touch this key
        have houter : storeEpochRewards (storeEpochRewards (storeEpochRewards tbl
            (primarySuccesses primary (getMissingRewardEpochs tbl s (min e (current - 1)))))
            (resp.filter (fun r => decide (r.epoch ∈ primaryFailures primary
              (getMissingRewardEpochs tbl s (min e (current - 1)))))))
            (((primaryFailures primary
              (getMissingRewardEpochs tbl s (min e (current - 1)))).filter
                (fun ep2 => decide (ep2 ∉ (resp.filter (fun r => decide (r.epoch ∈
                  primaryFailures primary
                    (getMissingRewardEpochs tbl s (min e (current - 1)))))).map
                      (fun r => r.epoch)))).map (zeroReward commission))
            (u64ToI64 ep)
            = storeEpochRewards (storeEpochRewards tbl
                (primarySuccesses primary (getMissingRewardEpochs tbl s (min e (current - 1)))))
                (resp.filter (fun r => decide (r.epoch ∈ primaryFailures primary
                  (getMissingRewardEpochs tbl s (min e (current - 1)))))) (u64ToI64 ep) := by
          refine storeEpochRewards_apply_of_forall_ne _ ?_
          intro x hx heq
          obtain ⟨f, hf, rfl⟩ := List.mem_map.mp hx
          obtain ⟨hfF, hfnot⟩ := List.mem_filter.mp hf
          have hf63 : f < two63 := hF63 f hfF
          have : f = ep := u64ToI64_injOn
            (lt_trans hf63 (by norm_num [two63, two64]))
            (lt_trans hep63 (by norm_num [two63, two64]))
            (by simpa [zeroReward] using heq)
          subst this
          exact (decide_eq_true_iff.mp hfnot)
            (List.mem_map.mpr ⟨r, hrneeded, hrep⟩)
        rw [houter]
        have := storeEpochRewards_apply_of_mem (storeEpochRewards tbl
          (primarySuccesses primary (getMissingRewardEpochs tbl s (min e (current - 1)))))
          hneededKeys hrneeded
        rw [hrep] at this
        exact this
  · -- afterwards nothing in the completed range is missing
    rw [List.eq_nil_iff_forall_not_mem]
    intro ep hep
    obtain ⟨hs, hle, hnone⟩ := (mem_missingEpochs_iff _ hce63 ep).mp hep
    -- the final store keeps every row present and covers the whole range
    have hsome : ((fetchRewardsWithCache tbl s e current primary dune true
        commission).store (u64ToI64 ep)).isSome = true := by
      by_cases htbl0 : (tbl (u64ToI64 ep)).isSome
      · rw [hstore]
        by_cases hneed : (resp.filter (fun r => decide (r.epoch ∈ primaryFailures primary
            (getMissingRewardEpochs tbl s (min e (current - 1)))))).isEmpty
        · rw [if_pos hneed]
          exact storeEpochRewards_isSome_of_isSome _
            (storeEpochRewards_isSome_of_isSome _ htbl0)
        · rw [if_neg hneed]
          exact storeEpochRewards_isSome_of_isSome _
            (storeEpochRewards_isSome_of_isSome _
              (storeEpochRewards_isSome_of_isSome _ htbl0))
      · have hmiss : ep ∈ getMissingRewardEpochs tbl s (min e (current - 1)) :=
          (mem_missingEpochs_iff tbl hce63 ep).mpr
            ⟨hs, hle, Option.not_isSome_iff_eq_none.mp htbl0⟩
        by_cases hprim : (primary ep).isSome
        · obtain ⟨d, hd⟩ := Option.isSome_iff_exists.mp hprim
          have hmemsucc : mkReward ep d ∈ primarySuccesses primary
              (getMissingRewardEpochs tbl s (min e (current - 1))) :=
            List.mem_filterMap.mpr ⟨ep, hmiss, by rw [hd]; rfl⟩
          have h1 : (storeEpochRewards tbl (primarySuccesses primary
              (getMissingRewardEpochs tbl s (min e (current - 1))))
              (u64ToI64 ep)).isSome := by
            have := storeEpochRewards_isSome_of_mem tbl hmemsucc
            simpa [mkReward] using this
          rw [hstore]
          by_cases hneed : (resp.filter (fun r => decide (r.epoch ∈ primaryFailures primary
              (getMissingRewardEpochs tbl s (min e (current - 1)))))).isEmpty
          · rw [if_pos hneed]
            exact storeEpochRewards_isSome_of_isSome _ h1
          · rw [if_neg hneed]
            exact storeEpochRewards_isSome_of_isSome _
              (storeEpochRewards_isSome_of_isSome _ h1)
        · have hfmem : ep ∈ primaryFailures primary
              (getMissingRewardEpochs tbl s (min e (current - 1))) :=
            List.mem_filter.mpr ⟨hmiss, by simpa using
              Option.not_isSome_iff_eq_none.mp hprim⟩
          rw [hstore]
          by_cases hneed : (resp.filter (fun r => decide (r.epoch ∈ primaryFailures primary
              (getMissingRewardEpochs tbl s (min e (current - 1)))))).isEmpty
          · rw [if_pos hneed]
            have hm : zeroReward commission ep ∈ (primaryFailures primary
                (getMissingRewardEpochs tbl s (min e (current - 1)))).map
                  (zeroReward commission) := List.mem_map.mpr ⟨ep, hfmem, rfl⟩
            have := storeEpochRewards_isSome_of_mem (storeEpochRewards tbl
              (primarySuccesses primary
                (getMissingRewardEpochs tbl s (min e (current - 1))))) hm
            simpa [zeroReward] using this
          · rw [if_neg hneed]
            by_cases hin : ep ∈ (resp.filter (fun r => decide (r.epoch ∈
                primaryFailures primary
                  (getMissingRewardEpochs tbl s (min e (current - 1)))))).map
                    (fun r => r.epoch)
            · obtain ⟨r, hr, hrep⟩ := List.mem_map.mp hin
              refine storeEpochRewards_isSome_of_isSome _ ?_
              have := storeEpochRewards_isSome_of_mem (storeEpochRewards tbl
                (primarySuccesses primary
                  (getMissingRewardEpochs tbl s (min e (current - 1))))) hr
              rw [hrep] at this
              exact this
            · have hm : zeroReward commission ep ∈ ((primaryFailures primary
                  (getMissingRewardEpochs tbl s (min e (current - 1)))).filter
                    (fun ep2 => decide (ep2 ∉ (resp.filter (fun r => decide (r.epoch ∈
                      primaryFailures primary
                        (getMissingRewardEpochs tbl s (min e (current - 1)))))).map
                          (fun r => r.epoch)))).map (zeroReward commission) :=
                List.mem_map.mpr ⟨ep,
                  List.mem_filter.mpr ⟨hfmem, decide_eq_true_iff.mpr hin⟩, rfl⟩
              have := storeEpochRewards_isSome_of_mem (storeEpochRewards
                (storeEpochRewards tbl (primarySuccesses primary
                  (getMissingRewardEpochs tbl s (min e (current - 1)))))
                (resp.filter (fun r => decide (r.epoch ∈ primaryFailures primary
                  (getMissingRewardEpochs tbl s (min e (current - 1))))))) hm
              simpa [zeroReward] using this
    rw [hnone] at hsome
    cases hsome

/-- Witness for C3: the spec scenario with a configured secondary — epochs
900..=903, current 904, primary fails on 902, the bulk query dated
2025-12-28 (the date of epoch 902) succeeds with no row for 902; afterwards
902 holds the zero record and nothing in 900..=903 is missing. -/
theorem secondary_fallback_fills_failures_witness :
    (903 < two63)
    ∧ ((fetchRewardsWithCache emptyRewardTable 900 903 904 primScenario
        duneScenarioEmpty true 5).failures ≠ [])
    ∧ (duneScenarioEmpty (epochToDate (listMinD
        (fetchRewardsWithCache emptyRewardTable 900 903 904 primScenario
          duneScenarioEmpty true 5).failures)) = some [])
    ∧ (([] : List EpochReward).map (fun r => r.epoch)).Nodup
    ∧ ((fetchRewardsWithCache emptyRewardTable 900 903 904 primScenario
          duneScenarioEmpty true 5).duneQueries
        = [epochToDate (listMinD
            (fetchRewardsWithCache emptyRewardTable 900 903 904 primScenario
              duneScenarioEmpty true 5).failures)]
      ∧ (∀ ep ∈ (fetchRewardsWithCache emptyRewardTable 900 903 904 primScenario
            duneScenarioEmpty true 5).failures,
          (fetchRewardsWithCache emptyRewardTable 900 903 904 primScenario
              duneScenarioEmpty true 5).store (u64ToI64 ep)
            = some (match ([] : List EpochReward).find? (fun r => r.epoch == ep) with
                    | some r => rewardToRow r
                    | none => rewardToRow (zeroReward 5 ep)))
      ∧ getMissingRewardEpochs
          (fetchRewardsWithCache emptyRewardTable 900 903 904 primScenario
            duneScenarioEmpty true 5).store 900 (min 903 (904 - 1)) = []) :=
  ⟨by decide, by decide, by decide, by decide,
   secondary_fallback_fills_failures emptyRewardTable 900 903 904 primScenario
     duneScenarioEmpty 5 [] (by decide) (by decide) (by decide) (by decide)⟩

/-- C1 counterexample: a forced-refresh (`no_cache`) run over 904..=904 with
current epoch 904 writes the primary response for the in-flight epoch 904
straight to the store (the rewards path does not filter to completed epochs,
and neither does the MEV path), so a record with epoch ≥ current is written. -/
theorem volatility_noCache_counterexample :
    (fetchRewardsNoCache emptyRewardTable 904 904
        (fun _ => some { amountLamports := 7, amountSol := 7
                         commission := 5, effectiveSlot := 390528000 })).1
      (u64ToI64 904)
      = some (rewardToRow (mkReward 904
          { amountLamports := 7, amountSol := 7
            commission := 5, effectiveSlot := 390528000 }))
    ∧ (fetchMevNoCache emptyMevTable
        [{ epoch := 904, total_tips_lamports := 10, commission_lamports := 1
           amount_sol := 1, date := none }]).1 (u64ToI64 904)
      = some (mevToRow { epoch := 904, total_tips_lamports := 10
                         commission_lamports := 1, amount_sol := 1, date := none }) := by
  constructor
  · rfl
  · rfl

/-- C7 amended: the MEV reconciliation performs at most one upstream call
per run (an old epoch absent from the bulk response is never individually
re-fetched); the run performs zero calls exactly when some cached claim in
[start, completed_end] has epoch at or above completed_end − 1, and in that
case the store is untouched.  A fresh call is therefore made exactly when
every cached claim of the range is strictly older than completed_end − 1,
not merely older than the newest completed epoch. -/
theorem mev_fetch_condition (tbl : MevTable) (s e current : Nat)
    (jitoResp : List MevClaim) :
    (fetchMevWithCache tbl s e current jitoResp).upstreamCalls ≤ 1
    ∧ ((fetchMevWithCache tbl s e current jitoResp).upstreamCalls = 0 ↔
        ∃ c ∈ getMevClaims tbl s (min e (current - 1)),
          min e (current - 1) - 1 ≤ c.epoch)
    ∧ ((fetchMevWithCache tbl s e current jitoResp).upstreamCalls = 0 →
        (fetchMevWithCache tbl s e current jitoResp).store = tbl) := by
  unfold fetchMevWithCache
  dsimp only
  by_cases hrec : (getMevClaims tbl s (min e (current - 1))).any
      (fun c => decide (min e (current - 1) - 1 ≤ c.epoch))
  · rw [if_pos hrec]
    dsimp only
    refine ⟨by omega, ?_, fun _ => rfl⟩
    simp only [List.any_eq_true, decide_eq_true_iff] at hrec
    exact ⟨fun _ => hrec, fun _ => rfl⟩
  · rw [if_neg hrec]
    dsimp only
    refine ⟨by omega, ?_, fun h => absurd h (by decide)⟩
    simp only [List.any_eq_true, decide_eq_true_iff] at hrec
    exact ⟨fun h => absurd h (by decide), fun hx => absurd hx hrec⟩

/-- C7 counterexample: range 900..=911, current epoch 911, cache holding
only epoch 909.  The completed range contains epoch 910, which is younger
than the latest cached MEV epoch 909, yet the run performs zero upstream
calls, because the code only re-fetches when nothing at or above
completed_end − 1 = 909 is cached. -/
theorem mev_fetch_counterexample :
    (fetchMevWithCache (storeMevClaims emptyMevTable
        [{ epoch := 909, total_tips_lamports := 100, commission_lamports := 10
           amount_sol := 1, date := none }]) 900 911 911 []).upstreamCalls = 0
    ∧ (∀ c ∈ getMevClaims (storeMevClaims emptyMevTable
        [{ epoch := 909, total_tips_lamports := 100, commission_lamports := 10
           amount_sol := 1, date := none }]) 900 (min 911 (911 - 1)), c.epoch ≤ 909)
    ∧ 909 < 910 ∧ 900 ≤ 910 ∧ 910 ≤ min 911 (911 - 1) := by
  refine ⟨by decide, by decide, by decide, by decide, by decide⟩

/-- One categorization step, written through the per-transfer decision
function. -/
theorem categorizeStep_spec (cfg : Config) (acc : CategorizedTransfers)
    (t : SolTransfer) :
    categorizeStep cfg acc t =
      { seeding := acc.seeding ++
          (if classOf cfg t == some .seeding then [t] else [])
        sfdp_reimbursements := acc.sfdp_reimbursements ++
          (if classOf cfg t == some .sfdpReimbursement then [t] else [])
        mev_deposits := acc.mev_deposits ++
          (if classOf cfg t == some .mevDeposit then [t] else [])
        vote_funding := acc.vote_funding ++
          (if classOf cfg t == some .voteFunding then [t] else [])
        withdrawals := acc.withdrawals ++
          (if classOf cfg t == some .withdrawal then [t] else [])
        other := acc.other ++
          (if classOf cfg t == some .other then [t] else []) } := by
  obtain ⟨a1, a2, a3, a4, a5, a6⟩ := acc
  unfold categorizeStep classOf
  by_cases h1 : isOurAccount cfg t.toAddr
  · by_cases h2 : t.fromAddr == cfg.personalWallet
    · simp [h1, h2]
    · by_cases h3 : isSolanaFoundation t.fromAddr
      · simp [h1, h2, h3]
      · by_cases h4 : isJito t.fromAddr
        · simp [h1, h2, h3, h4]
        · by_cases h5 : isOurAccount cfg t.fromAddr
          · simp [h1, h2, h3, h4, h5]
          · simp [h1, h2, h3, h4, h5]
  · by_cases h5 : isOurAccount cfg t.fromAddr
    · by_cases h6 : isExchange t.toAddr || t.toAddr == cfg.personalWallet
      · simp [h1, h5, h6]
      · simp [h1, h5, h6]
    · simp [h1, h5]

/-- The categorization fold, in closed form. -/
theorem categorize_foldl_spec (cfg : Config) (ts : List SolTransfer) :
    ∀ acc : CategorizedTransfers,
      ts.foldl (categorizeStep cfg) acc =
        { seeding := acc.seeding ++
            ts.filter (fun t => classOf cfg t == some .seeding)
          sfdp_reimbursements := acc.sfdp_reimbursements ++
            ts.filter (fun t => classOf cfg t == some .sfdpReimbursement)
          mev_deposits := acc.mev_deposits ++
            ts.filter (fun t => classOf cfg t == some .mevDeposit)
          vote_funding := acc.vote_funding ++
            ts.filter (fun t => classOf cfg t == some .voteFunding)
          withdrawals := acc.withdrawals ++
            ts.filter (fun t => classOf cfg t == some .withdrawal)
          other := acc.other ++
            ts.filter (fun t => classOf cfg t == some .other) } := by
  induction ts with
  | nil =>
    intro acc
    obtain ⟨a1, a2, a3, a4, a5, a6⟩ := acc
    simp
  | cons t rest ih =>
    intro acc
    rw [List.foldl_cons, categorizeStep_spec, ih]
    obtain ⟨a1, a2, a3, a4, a5, a6⟩ := acc
    simp only [CategorizedTransfers.mk.injEq, List.filter_cons, List.append_assoc]
    rcases hcl : classOf cfg t with - | c
    · simp [hcl]
    · cases c <;> simp [hcl]

/-- C8 amended: the categorizer is a pure function of the transfer direction
relative to the validator-owned address set (vote, identity, withdraw
authority) and of the counterparty: each bucket is exactly the input
transfers whose decision lands there, so every transfer with at least one
validator-owned endpoint is placed in exactly one of the six classes, with
the fallback class being other; but a transfer with neither endpoint
validator-owned — including transfers that only touch the personal wallet —
is placed in no class at all, not in other. -/
theorem categorize_partition (ts : List SolTransfer) (cfg : Config) :
    ((categorizeTransfers ts cfg).seeding
        = ts.filter (fun t => classOf cfg t == some .seeding)
      ∧ (categorizeTransfers ts cfg).sfdp_reimbursements
        = ts.filter (fun t => classOf cfg t == some .sfdpReimbursement)
      ∧ (categorizeTransfers ts cfg).mev_deposits
        = ts.filter (fun t => classOf cfg t == some .mevDeposit)
      ∧ (categorizeTransfers ts cfg).vote_funding
        = ts.filter (fun t => classOf cfg t == some .voteFunding)
      ∧ (categorizeTransfers ts cfg).withdrawals
        = ts.filter (fun t => classOf cfg t == some .withdrawal)
      ∧ (categorizeTransfers ts cfg).other
        = ts.filter (fun t => classOf cfg t == some .other))
    ∧ (∀ t : SolTransfer, classOf cfg t = none ↔
        (isOurAccount cfg t.toAddr = false ∧ isOurAccount cfg t.fromAddr = false)) := by
  constructor
  · unfold categorizeTransfers
    rw [categorize_foldl_spec]
    unfold emptyCategorized
    simp
  · intro t
    unfold classOf
    by_cases h1 : isOurAccount cfg t.toAddr
    · rw [if_pos h1]
      constructor
      · intro hn
        split_ifs at hn
      · rintro ⟨hf, -⟩
        simp [h1] at hf
    · rw [if_neg h1]
      by_cases h5 : isOurAccount cfg t.fromAddr
      · rw [if_pos h5]
        constructor
        · intro hn
          split_ifs at hn
        · rintro ⟨-, hf⟩
          simp [h5] at hf
      · rw [if_neg h5]
        constructor
        · intro hn
          exact ⟨by simpa using h1, by simpa using h5⟩
        · intro hcond
          rfl

/-- C8 counterexample: a transfer from the personal wallet to an unknown
outside address (a transfer the parser does keep, since the personal wallet
is a relevant account) is placed in no bucket at all — in particular not in
the class other — so the six classes do not partition the input. -/
theorem categorize_counterexample :
    categorizeTransfers
      [{ signature := "sig1", slot := 1, timestamp := none, date := none
         fromAddr := "P", toAddr := "X", amount_lamports := 5000000
         amount_sol := 1 / 200, from_label := "personal", to_label := "unknown"
         from_category := .personalWallet, to_category := .unknown }]
      { voteAccount := "V", identity := "I", withdrawAuthority := "W"
        personalWallet := "P" }
      = emptyCategorized := by decide

theorem insertSorted_perm {α : Type} (keep : α → α → Bool) (a : α) (l : List α) :
    (insertSorted keep a l).Perm (a :: l) := by
  induction l with
  | nil => exact List.Perm.refl _
  | cons x xs ih =>
    unfold insertSorted
    by_cases h : keep x a
    · rw [if_pos h]
      exact (ih.cons x).trans (List.Perm.swap a x xs)
    · rw [if_neg h]

theorem stableSortBy_perm {α : Type} (keep : α → α → Bool) (l : List α) :
    (stableSortBy keep l).Perm l := by
  induction l with
  | nil => exact List.Perm.refl _
  | cons a rest ih =>
    exact (insertSorted_perm keep a (stableSortBy keep rest)).trans (ih.cons a)

theorem mem_stableSortBy {α : Type} {keep : α → α → Bool} {l : List α} {x : α} :
    x ∈ stableSortBy keep l ↔ x ∈ l :=
  (stableSortBy_perm keep l).mem_iff

theorem dedupKeepFirstByAux_subset {α β : Type} [DecidableEq β] {key : α → β}
    {seen : List β} {l : List α} {x : α}
    (hx : x ∈ dedupKeepFirstByAux key seen l) : x ∈ l := by
  induction l generalizing seen with
  | nil => cases hx
  | cons a rest ih =>
    unfold dedupKeepFirstByAux at hx
    by_cases h : key a ∈ seen
    · rw [if_pos h] at hx
      exact List.mem_cons_of_mem a (ih hx)
    · rw [if_neg h] at hx
      rcases List.mem_cons.mp hx with rfl | hx'
      · exact List.mem_cons_self _ _
      · exact List.mem_cons_of_mem a (ih hx')

theorem dedupKeepFirstByAux_key_not_seen {α β : Type} [DecidableEq β] {key : α → β}
    {seen : List β} {l : List α} {x : α}
    (hx : x ∈ dedupKeepFirstByAux key seen l) : key x ∉ seen := by
  induction l generalizing seen with
  | nil => cases hx
  | cons a rest ih =>
    unfold dedupKeepFirstByAux at hx
    by_cases h : key a ∈ seen
    · rw [if_pos h] at hx
      exact ih hx
    · rw [if_neg h] at hx
      rcases List.mem_cons.mp hx with rfl | hx'
      · exact h
      · intro hc
        exact ih hx' (List.mem_cons_of_mem _ hc)

theorem dedupKeepFirstByAux_pairwise {α β : Type} [DecidableEq β] (key : α → β)
    (seen : List β) (l : List α) :
    (dedupKeepFirstByAux key seen l).Pairwise (fun a b => key a ≠ key b) := by
  induction l generalizing seen with
  | nil => exact List.Pairwise.nil
  | cons a rest ih =>
    unfold dedupKeepFirstByAux
    by_cases h : key a ∈ seen
    · rw [if_pos h]
      exact ih seen
    · rw [if_neg h]
      refine List.Pairwise.cons ?_ (ih (key a :: seen))
      intro b hb hab
      exact dedupKeepFirstByAux_key_not_seen hb (hab ▸ List.mem_cons_self _ _)

theorem dedupKeepFirstByAux_covers {α β : Type} [DecidableEq β] {key : α → β}
    {seen : List β} {l : List α} {x : α}
    (hx : x ∈ l) (hns : key x ∉ seen) :
    ∃ y ∈ dedupKeepFirstByAux key seen l, key y = key x := by
  induction l generalizing seen with
  | nil => cases hx
  | cons a rest ih =>
    unfold dedupKeepFirstByAux
    rcases List.mem_cons.mp hx with rfl | hx'
    · rw [if_neg hns]
      exact ⟨x, List.mem_cons_self _ _, rfl⟩
    · by_cases h : key a ∈ seen
      · rw [if_pos h]
        exact ih hx' hns
      · rw [if_neg h]
        by_cases hkey : key x = key a
        · exact ⟨a, List.mem_cons_self _ _, hkey.symm⟩
        · obtain ⟨y, hy, hyk⟩ := ih hx' (by
            intro hc
            rcases List.mem_cons.mp hc with hc1 | hc2
            · exact hkey hc1
            · exact hns hc2)
          exact ⟨y, List.mem_cons_of_mem a hy, hyk⟩

/-- C6 amended: the merged global read de-duplicates by signature alone —
its result carries pairwise-distinct signatures, every returned record
decodes one stored row, and every stored row is represented by exactly one
record with its signature.  Two stored records that share a signature but
differ in from, to, or amount are therefore collapsed to one, not both
retained. -/
theorem get_all_transfers_one_per_signature (st : TransferState) :
    (getAllTransfers st).Pairwise (fun a b => a.signature ≠ b.signature)
    ∧ (∀ x ∈ getAllTransfers st, ∃ row ∈ st.transfers, x = rowToTransfer (toSelRow row))
    ∧ (∀ row ∈ st.transfers, ∃ x ∈ getAllTransfers st, x.signature = row.signature) := by
  refine ⟨?_, ?_, ?_⟩
  · unfold getAllTransfers dedupKeepFirstBy
    refine List.Pairwise.map _ ?_ (dedupKeepFirstByAux_pairwise _ [] _)
    intro a b hab
    exact hab
  · intro x hx
    unfold getAllTransfers at hx
    obtain ⟨r, hr, rfl⟩ := List.mem_map.mp hx
    have hr1 : r ∈ stableSortBy (fun x a => decide (a.slot < x.slot))
        (dedupKeepFirstBy id (st.transfers.map toSelRow)) :=
      dedupKeepFirstByAux_subset hr
    have hr2 : r ∈ dedupKeepFirstBy id (st.transfers.map toSelRow) :=
      mem_stableSortBy.mp hr1
    have hr3 : r ∈ st.transfers.map toSelRow := dedupKeepFirstByAux_subset hr2
    obtain ⟨row, hrow, rfl⟩ := List.mem_map.mp hr3
    exact ⟨row, hrow, rfl⟩
  · intro row hrow
    have h1 : toSelRow row ∈ st.transfers.map toSelRow :=
      List.mem_map.mpr ⟨row, hrow, rfl⟩
    obtain ⟨y, hy, hyk⟩ := @dedupKeepFirstByAux_covers TransferSelRow TransferSelRow
      inferInstance id [] (st.transfers.map toSelRow) (toSelRow row) h1
      (List.not_mem_nil _)
    have hyid : y = toSelRow row := hyk
    have hy2 : y ∈ stableSortBy (fun x a => decide (a.slot < x.slot))
        (dedupKeepFirstBy id (st.transfers.map toSelRow)) :=
      mem_stableSortBy.mpr hy
    obtain ⟨z, hz, hzk⟩ := @dedupKeepFirstByAux_covers TransferSelRow String
      inferInstance (fun r => r.signature) [] _ y hy2 (List.not_mem_nil _)
    refine ⟨rowToTransfer z, List.mem_map.mpr ⟨z, hz, rfl⟩, ?_⟩
    rw [show (rowToTransfer z).signature = z.signature from rfl, hzk, hyid]
    rfl

/-- C6 counterexample: two stored rows with the same signature but different
amounts (observed via two different account scans) yield a single record in
the merged read, so natural keys sharing a signature are collapsed rather
than both retained. -/
theorem get_all_transfers_counterexample :
    (getAllTransfers
      { transfers :=
          [{ signature := "s", slot := 10, timestamp := none, date := none
             fromAddress := "A", toAddress := "B", amountLamports := 1
             amountSol := 1, fromLabel := "", toLabel := ""
             fromCategory := "Unknown", toCategory := "Unknown", accountKey := "a" },
           { signature := "s", slot := 5, timestamp := none, date := none
             fromAddress := "A", toAddress := "C", amountLamports := 2
             amountSol := 2, fromLabel := "", toLabel := ""
             fromCategory := "Unknown", toCategory := "Unknown", accountKey := "b" }]
        progress := fun _ => none }).length = 1 := by decide

theorem mem_upsertTransferRow {rows : List TransferRow} {row r : TransferRow}
    (hr : r ∈ upsertTransferRow rows row) : r ∈ rows ∨ r = row := by
  unfold upsertTransferRow at hr
  rcases List.mem_append.mp hr with h1 | h2
  · exact Or.inl (List.mem_of_mem_filter h1)
  · exact Or.inr (List.mem_singleton.mp h2)

theorem mem_storeTransfers_foldl (ts : List SolTransfer) (init : List TransferRow)
    (acct : String) (r : TransferRow)
    (hr : r ∈ ts.foldl (fun rows t => upsertTransferRow rows (transferToRow t acct)) init) :
    r ∈ init ∨ ∃ t ∈ ts, r = transferToRow t acct := by
  induction ts generalizing init with
  | nil => exact Or.inl hr
  | cons t rest ih =>
    simp only [List.foldl_cons] at hr
    rcases ih _ hr with h1 | ⟨t2, ht2, he⟩
    · rcases mem_upsertTransferRow h1 with ha | hb
      · exact Or.inl ha
      · exact Or.inr ⟨t, List.mem_cons_self _ _, hb⟩
    · exact Or.inr ⟨t2, List.mem_cons_of_mem _ ht2, he⟩

theorem getAccountProgress_of_bounds (st2 : TransferState) (acct : String) (h : Nat)
    (hh : h < two63)
    (hp : st2.progress acct = some (u64ToI64 h))
    (hrows : ∀ r ∈ st2.transfers, r.accountKey = acct → 0 ≤ r.slot ∧ r.slot ≤ (h : Int)) :
    getAccountProgress st2 acct = some h := by
  have h64 : h < two64 := lt_trans hh (by norm_num [two63, two64])
  unfold getAccountProgress
  dsimp only
  rw [hp]
  simp only [Option.map_some']
  rw [i64ToU64_u64ToI64 h64]
  rcases hmax : ((st2.transfers.filter
      (fun r => r.accountKey == acct)).map (fun r => r.slot)).max? with _ | s
  · rw [hmax]
  · rw [hmax]
    dsimp only
    have hs_mem : s ∈ (st2.transfers.filter
        (fun r => r.accountKey == acct)).map (fun r => r.slot) :=
      List.max?_mem (fun a b => max_choice a b) hmax
    obtain ⟨r, hrf, rfl⟩ := List.mem_map.mp hs_mem
    have hfil := List.mem_filter.mp hrf
    have hacct : r.accountKey = acct := by simpa using hfil.2
    have hb := hrows r hfil.1 hacct
    by_cases h0 : 0 < r.slot
    · rw [if_pos h0]
      have hsm : i64ToU64 r.slot = r.slot.toNat :=
        i64ToU64_of_small hb.1 (lt_of_le_of_lt hb.2 (by exact_mod_cast hh))
      rw [hsm]
      have hle : r.slot.toNat ≤ h := by omega
      simp [Nat.max_eq_left hle]
    · rw [if_neg h0]

/-- C5 amended: `set_account_progress` persists the scan's highest observed
slot as-is, not `max(old_cursor, highest)`; the spec's equation and the
monotonicity it implies hold exactly when nothing already recorded for the
account (cursor row or stored transfer slots) exceeds the new highest.
Under those side conditions — the scan reported highest slot `h` below
`2^63`, every extracted transfer sits at or below `h`, and every stored row
of the account has slot in `[0, h]` — the cursor read back after the scan
is exactly `h`, including when the scan extracts zero transfers. -/
theorem cursor_advances_to_highest (st : TransferState) (acct : String)
    (pages : List (List SigInfo)) (parseTx : SigInfo → List SolTransfer) (h : Nat)
    (hh : h < two63)
    (hres : (fetchTransfersForAccount (getAccountProgress st acct)
        pages parseTx).highestSlotSeen = some h)
    (hts : ∀ t ∈ (fetchTransfersForAccount (getAccountProgress st acct)
        pages parseTx).transfers, t.slot ≤ h)
    (hrows : ∀ r ∈ st.transfers, r.accountKey = acct → 0 ≤ r.slot ∧ r.slot ≤ (h : Int)) :
    getAccountProgress (scanAccount st acct pages parseTx) acct = some h := by
  unfold scanAccount
  dsimp only
  rw [hres]
  by_cases hemp : (fetchTransfersForAccount (getAccountProgress st acct)
      pages parseTx).transfers.isEmpty
  · rw [if_pos hemp]
    refine getAccountProgress_of_bounds _ _ _ hh ?_ ?_
    · unfold setAccountProgress
      dsimp only
      exact Function.update_same _ _ _
    · exact hrows
  · rw [if_neg hemp]
    refine getAccountProgress_of_bounds _ _ _ hh ?_ ?_
    · unfold storeTransfers setAccountProgress
      dsimp only
      exact Function.update_same _ _ _
    · intro r hr hacct
      unfold storeTransfers at hr
      dsimp only at hr
      rcases mem_storeTransfers_foldl _ _ _ _ hr with h1 | ⟨t, ht, rfl⟩
      · exact hrows r h1 hacct
      · have hts2 := hts t ht
        have hcast : u64ToI64 t.slot = (t.slot : Int) :=
          u64ToI64_of_lt_two63 (lt_of_le_of_lt hts2 hh)
        unfold transferToRow
        dsimp only
        rw [hcast]
        exact ⟨Int.ofNat_nonneg _, by exact_mod_cast hts2⟩

/-- C5 witness: the spec scenario — cursor 1000, one page at slots 1500,
1400, 999, every transaction parsing to nothing — leaves the cursor at the
page's newest slot 1500 even though zero transfers were extracted. -/
theorem cursor_advances_to_highest_witness :
    1500 < two63
    ∧ (fetchTransfersForAccount (getAccountProgress c5State "withdraw_authority")
        c5Pages (fun _ => [])).highestSlotSeen = some 1500
    ∧ getAccountProgress
        (scanAccount c5State "withdraw_authority" c5Pages (fun _ => []))
        "withdraw_authority" = some 1500 := by
  refine ⟨by decide, by decide, ?_⟩
  refine cursor_advances_to_highest c5State "withdraw_authority" c5Pages
    (fun _ => []) 1500 (by decide) (by decide) ?_ ?_
  · intro t ht
    have : (fetchTransfersForAccount (getAccountProgress c5State "withdraw_authority")
        c5Pages (fun _ => [])).transfers = [] := by decide
    rw [this] at ht
    cases ht
  · intro r hr
    have : c5State.transfers = [] := rfl
    rw [this] at hr
    cases hr

/-- C5 counterexample: with a stored cursor of 100 and a scan whose only
page sits entirely at slot 50 (so the loop stops immediately and extracts
nothing), the persisted cursor becomes 50 — strictly below the old cursor
100 — refuting both the equation `new = max(old, highest)` and
monotonicity across runs. -/
theorem cursor_advances_to_highest_counterexample :
    getAccountProgress c5StaleState "withdraw_authority" = some 100
    ∧ getAccountProgress
        (scanAccount c5StaleState "withdraw_authority"
          [[{ signature := "t", slot := 50 }]] (fun _ => []))
        "withdraw_authority" = some 50 := by
  exact ⟨by decide, by decide⟩

end BlockParliament
